import Mathlib

/-!
Verification development for the `aw-client-rust` HTTP client library
(`src/aw-client-rust/src/lib.rs`).

The client builds HTTP requests (URL strings, query strings, JSON bodies)
and maps HTTP responses to typed results.  The embedding below translates:

* the request-construction code of `AwClient` (`new`, `get_bucket`,
  `get_buckets`, `create_bucket`, `create_bucket_simple`, `delete_bucket`,
  `get_events`, `insert_event`, `insert_events`, `heartbeat`,
  `delete_event`, `get_event_count`, `get_info`);
* the response pipelines (`error_for_status`, body decoding, the
  `trim().parse::<i64>()` handling of the event-count body);
* the behavior of the external libraries the code calls through narrow
  contracts: the `url` crate (WHATWG URL parsing/serialization, restricted
  to the `http://host:port`-shaped, query-free inputs this client
  produces), `chrono`'s `DateTime<Utc>::to_rfc3339`, `form_urlencoded`
  pair serialization, and Rust's `str::trim` / integer `Display` and
  `FromStr`.

Machine integers (`u16`, `u64`, `i64`) are modelled as `Nat`/`Int` with
explicit range checks where the code's behavior depends on them
(`i64::from_str` overflow, the URL parser's `u16` port check).
-/

/-! ## Character classes (all via `Char.toNat`, mirroring the byte-level
definitions of the Rust libraries) -/

/-- Rust `char::is_whitespace`: the Unicode `White_Space` property. -/
def rustIsWhitespace (c : Char) : Bool :=
  let n := c.toNat
  n = 32 || (9 ≤ n && n ≤ 13) || n = 0x85 || n = 0xA0 || n = 0x1680 ||
    (0x2000 ≤ n && n ≤ 0x200A) || n = 0x2028 || n = 0x2029 || n = 0x202F ||
    n = 0x205F || n = 0x3000

/-- ASCII decimal digit, as used by Rust's integer `FromStr`. -/
def digitB (c : Char) : Bool :=
  48 ≤ c.toNat && c.toNat ≤ 57

/-- Value of an ASCII digit character. -/
def digitVal (c : Char) : Nat := c.toNat - 48

/-! ## Decimal rendering and parsing

`natDecimal` models the decimal rendering used by Rust's `Display` for
unsigned integers (`format!("{}", port)`, `limit.to_string()`);
`intDecimal` the rendering for `i64` (`Display` prints `-` followed by
the magnitude).  `parseDecimal?` models the digit-folding core of Rust's
`FromStr` for integers (all-ASCII-digit, non-empty, most significant
first). -/

/-- Fuel-driven decimal rendering; `fuel > n` suffices. -/
def natDecimalGo : Nat → Nat → List Char
  | 0, _ => []
  | fuel + 1, n =>
    if n < 10 then [Nat.digitChar n]
    else natDecimalGo fuel (n / 10) ++ [Nat.digitChar (n % 10)]

/-- Decimal digit string of a natural number (Rust `Display` for unsigned
integers). -/
def natDecimal (n : Nat) : List Char := natDecimalGo (n + 1) n

/-- The `natDecimal` rendering as a `String`. -/
def natStr (n : Nat) : String := String.mk (natDecimal n)

/-- Decimal rendering of an `i64` value (Rust `Display` for `i64`). -/
def intDecimal (i : Int) : List Char :=
  if i < 0 then '-' :: natDecimal (-i).toNat else natDecimal i.toNat

/-- The `intDecimal` rendering as a `String`. -/
def intStr (i : Int) : String := String.mk (intDecimal i)

/-- Parse a non-empty all-digit character list as a natural number
(most significant digit first). -/
def parseDecimal? (l : List Char) : Option Nat :=
  if l ≠ [] ∧ l.all digitB then
    some (l.foldl (fun a c => 10 * a + digitVal c) 0)
  else none

/-- Rust `str::parse::<i64>()`: optional `+`/`-` sign, then one or more
ASCII digits, rejecting values outside the `i64` range. -/
def rustParseI64 (s : String) : Option Int :=
  match s.data with
  | '+' :: rest =>
    match parseDecimal? rest with
    | some n => if n ≤ 2 ^ 63 - 1 then some (n : Int) else none
    | none => none
  | '-' :: rest =>
    match parseDecimal? rest with
    | some n => if n ≤ 2 ^ 63 then some (-(n : Int)) else none
    | none => none
  | _ =>
    match parseDecimal? s.data with
    | some n => if n ≤ 2 ^ 63 - 1 then some (n : Int) else none
    | none => none

/-- Rust `str::trim`: remove leading and trailing `char::is_whitespace`
characters. -/
def trimChars (l : List Char) : List Char :=
  ((l.dropWhile rustIsWhitespace).reverse.dropWhile rustIsWhitespace).reverse

/-- Rust `str::trim` on `String`. -/
def trimString (s : String) : String := String.mk (trimChars s.data)

/-! ## Event-count body handling (`get_event_count`, lines 167–182)

The source runs `res.trim().parse::<i64>()` and `panic!`s on a parse
error.  `CountOutcome` has a constructor for every way the call path can
end; `malformedCountError` is the recoverable error the spec's error
taxonomy (§7) describes — the code never produces it, and its presence in
the type lets theorems compare the code's behavior against the spec's. -/

inductive CountOutcome where
  /-- The `error_for_status` check failed: non-success HTTP status, carrying the code. -/
  | statusError (code : Nat)
  /-- The count was parsed and returned. -/
  | ok (n : Int)
  /-- Recoverable malformed-count error from the spec's taxonomy (§7);
  unreachable in the source. -/
  | malformedCountError
  /-- The `panic!` on line 179: the call aborts without returning. -/
  | panicked
  deriving DecidableEq

/-- Body handling of `get_event_count` (lines 177–181): trim, parse as
`i64`, return the integer on success and `panic!` otherwise. -/
def parseCountBody (body : String) : CountOutcome :=
  match rustParseI64 (trimString body) with
  | some n => .ok n
  | none => .panicked

/-! ## HTTP responses and per-operation response handling -/

/-- An HTTP response as seen by the client after a successful transport
round trip: a status code and a body. -/
structure Response where
  status : Nat
  body : String
  deriving DecidableEq

/-- Model of `reqwest::Response::error_for_status`: it errors exactly on client-error
(400–499) and server-error (500–599) statuses. -/
def errorForStatus (status : Nat) : Bool :=
  (400 ≤ status && status ≤ 499) || (500 ≤ status && status ≤ 599)

/-- Outcome of the `get_bucket` response pipeline (lines 55–63), up to the
decode step: either `error_for_status` produced a status error, or the
pipeline proceeds to a JSON decode attempt on the body. -/
inductive GetBucketStep where
  | statusError (code : Nat)
  | decodeBody (body : String)
  deriving DecidableEq

/-- Whether a `GetBucketStep` is a status error. -/
def GetBucketStep.isStatusError : GetBucketStep → Bool
  | .statusError _ => true
  | .decodeBody _ => false

/-- Response handling of `get_bucket` (lines 55–63): `error_for_status`
first, then a JSON decode attempt on the body. -/
def get_bucket_handle (r : Response) : GetBucketStep :=
  if errorForStatus r.status then .statusError r.status
  else .decodeBody r.body

/-- Response handling of `get_event_count` (lines 169–181):
`error_for_status` first, then `text()` and the trim/parse/panic body
handling. -/
def get_event_count_handle (r : Response) : CountOutcome :=
  if errorForStatus r.status then .statusError r.status
  else parseCountBody r.body

/-! ## URL model

`AwClient` stores `baseurl : reqwest::Url` and builds request URLs with
`format!("{}...", self.baseurl, ...)`; the resulting strings are parsed
back into `Url`s either explicitly (`get_events`, line 110) or by
`reqwest` when the request is sent.  `reqwest::Url` is the `url` crate's
WHATWG URL.  The model below covers the fragment of WHATWG parsing and
serialization that these strings exercise:

* scheme `http` only;
* authorities without userinfo (`@`) or IPv6 brackets, without
  percent-encoding or non-ASCII in the host, and whose host does not end
  in a number — WHATWG hands such hosts to the IPv4 parser, which
  normalizes them to dotted-decimal or fails (such inputs are rejected
  by the model although some are accepted by the full parser — no string
  built by the client from the inputs of the theorems below contains
  them);
* no query or fragment in the parsed string (`?` and `#` rejected; the
  only client URL with a query, `heartbeat`, is never parsed by a theorem
  below).  Query pairs appended through `query_pairs_mut` are modelled
  separately.

Within that fragment the model is faithful, including the behaviors the
claims turn on: a missing path serializes as `/`, default port 80 is
elided, empty path segments are preserved (`//api` stays `//api`), `.`
and `..` segments are collapsed, hosts are lowercased, and path
characters outside the path-safe set are percent-encoded as UTF-8. -/

/-- Character terminating the authority section: `/`, `?` or `#`. -/
def authStopChar (c : Char) : Bool :=
  c = '/' || c = '?' || c = '#'

/-- Split a list at the first character satisfying `p`; the matching
character (when any) starts the second component. -/
def breakAt (p : Char → Bool) : List Char → List Char × List Char
  | [] => ([], [])
  | c :: t =>
    if p c then ([], c :: t)
    else
      let r := breakAt p t
      (c :: r.1, r.2)

/-- Split a character list into `/`-separated segments; the list of
segments is never empty and keeps empty segments. -/
def splitSlash : List Char → List (List Char)
  | [] => [[]]
  | c :: t =>
    if c = '/' then [] :: splitSlash t
    else
      match splitSlash t with
      | [] => [[c]]
      | s :: rest => (c :: s) :: rest

/-- WHATWG path-state dot-segment handling over already-split segments:
`..` pops the previous segment, `.` is dropped, and a trailing `.`/`..`
leaves a trailing empty segment.  (The `%2e` spellings of dot segments
are outside the model; no input below contains `%`.) -/
def procSegs (acc : List (List Char)) : List (List Char) → List (List Char)
  | [] => acc
  | seg :: rest =>
    if seg = ['.', '.'] then
      let acc' := acc.dropLast
      if rest = [] then acc' ++ [[]] else procSegs acc' rest
    else if seg = ['.'] then
      if rest = [] then acc ++ [[]] else procSegs acc rest
    else procSegs (acc ++ [seg]) rest

/-- Characters allowed in a registered-name host: ASCII, printable, and
not a WHATWG forbidden domain code point (controls, space, `#/:<>?@[\]^|`,
`%`, DEL). -/
def hostAllowedChar (c : Char) : Bool :=
  let n := c.toNat
  0x20 < n && n < 0x7f &&
    !(n = 35 || n = 47 || n = 58 || n = 60 || n = 62 || n = 63 || n = 64 ||
      n = 91 || n = 92 || n = 93 || n = 94 || n = 124 || n = 37)

/-- ASCII lowercasing applied to registered-name hosts. -/
def lowerChar (c : Char) : Char :=
  if 65 ≤ c.toNat ∧ c.toNat ≤ 90 then Char.ofNat (c.toNat + 32) else c

/-- Path characters serialized verbatim: printable ASCII outside the
WHATWG path percent-encode set (`"`, `#`, `<`, `>`, `?`, `` ` ``, `{`,
`}`). -/
def pathKeep (c : Char) : Bool :=
  let n := c.toNat
  0x20 < n && n < 0x7f &&
    !(n = 34 || n = 35 || n = 60 || n = 62 || n = 63 || n = 96 ||
      n = 123 || n = 125)

/-- UTF-8 bytes of a code point. -/
def utf8Bytes (n : Nat) : List Nat :=
  if n < 0x80 then [n]
  else if n < 0x800 then [0xC0 + n / 64, 0x80 + n % 64]
  else if n < 0x10000 then
    [0xE0 + n / 4096, 0x80 + n / 64 % 64, 0x80 + n % 64]
  else [0xF0 + n / 262144, 0x80 + n / 4096 % 64, 0x80 + n / 64 % 64,
    0x80 + n % 64]

/-- Uppercase hexadecimal digit, as used by percent-encoding. -/
def hexUpper (d : Nat) : Char :=
  if d < 10 then Nat.digitChar d else Char.ofNat (55 + d)

/-- Percent-encode one byte. -/
def pctByte (m : Nat) : List Char :=
  ['%', hexUpper (m / 16), hexUpper (m % 16)]

/-- Serialize one path character: verbatim when path-safe, otherwise the
percent-encoded UTF-8 bytes. -/
def encPathChar (c : Char) : List Char :=
  if pathKeep c then [c] else (utf8Bytes c.toNat).flatMap pctByte

/-- Serialize one path segment. -/
def encSeg (seg : List Char) : List Char := seg.flatMap encPathChar

/-- Model of a parsed `reqwest::Url` (restricted as described above):
lowercased host, optional non-default port, path segments, and the query
string (`None` when the URL has no `?`). -/
structure UrlModel where
  host : String
  port : Option Nat
  segs : List String
  query : Option String
  deriving DecidableEq

/-- Parse the authority's port section: the characters after the first
`:`.  An absent or empty port is no port; a digit sequence must be a
`u16` and the `http` default 80 is normalized away; anything else is a
parse error. -/
def parsePort : List Char → Option (Option Nat)
  | [] => some none
  | _ :: ps =>
    if ps = [] then some none
    else
      match parseDecimal? ps with
      | some n => if n ≥ 65536 then none else if n = 80 then some none else some (some n)
      | none => none

/-- Parse the path section (everything from the first `/` after the
authority): split on `/`, collapse dot segments, percent-encode. -/
def parsePath (l : List Char) : List (List Char) :=
  match l with
  | [] => [[]]
  | _ :: p => (procSegs [] (splitSlash p)).map encSeg

/-- Split a character list into `.`-separated labels; the list of labels
is never empty and keeps empty labels. -/
def splitDot : List Char → List (List Char)
  | [] => [[]]
  | c :: t =>
    if c = '.' then [] :: splitDot t
    else
      match splitDot t with
      | [] => [[c]]
      | s :: rest => (c :: s) :: rest

/-- ASCII hexadecimal digit. -/
def hexDigitB (c : Char) : Bool :=
  digitB c || (97 ≤ c.toNat && c.toNat ≤ 102) ||
    (65 ≤ c.toNat && c.toNat ≤ 70)

/-- One dot-separated label counts as a number for the WHATWG
ends-in-a-number check when it is a non-empty all-digit label, or a
`0x`/`0X` prefix followed only by hexadecimal digits (possibly none) —
exactly the labels the WHATWG IPv4-number parser accepts (a leading-zero
octal label is all digits already). -/
def numberLabel (label : List Char) : Bool :=
  if label = [] then false
  else if label.all digitB then true
  else if (label.take 2 = ['0', 'x'] ∨ label.take 2 = ['0', 'X']) ∧
      (label.drop 2).all hexDigitB then true
  else false

/-- WHATWG ends-in-a-number checker: a domain whose last dot-separated
label (ignoring one trailing empty label) is a number is handed to the
IPv4 host parser instead of being kept as a registered name. -/
def endsInNumber (host : List Char) : Bool :=
  let parts := splitDot host
  let parts := if parts.getLast? = some ([] : List Char) then parts.dropLast
    else parts
  match parts.getLast? with
  | none => false
  | some label => numberLabel label

/-- Parse everything after the `http://` scheme prefix: split off the
authority, reject the unmodelled authority forms, validate and lowercase
the host, parse the port, and process the path.

Hosts that end in a number trigger the WHATWG IPv4 host parser in
`Url::parse` — `127.1` normalizes to `127.0.0.1`, `foo.09` fails — so
such hosts are outside the modelled fragment and rejected, like
userinfo and IPv6 authorities. -/
def parseAfterScheme (rest : List Char) : Option UrlModel :=
  match breakAt authStopChar rest with
  | (auth, pathPart) =>
    if auth.any (fun c => c = '@' || c = '[' || c = ']') then none
    else
      match breakAt (fun c => c = ':') auth with
      | (hostChars, portPart) =>
        if hostChars = [] ∨ ¬ hostChars.all hostAllowedChar then none
        else if endsInNumber hostChars then none
        else
          match parsePort portPart with
          | none => none
          | some port =>
            if pathPart.any (fun c => c = '?' || c = '#') then none
            else
              some { host := String.mk (hostChars.map lowerChar)
                     port := port
                     segs := (parsePath pathPart).map String.mk
                     query := none }

/-- Model of `Url::parse` on the fragment described above. -/
def parseHttpUrl (s : String) : Option UrlModel :=
  if s.data.take 7 = "http://".data then parseAfterScheme (s.data.drop 7)
  else none

/-- Serialize path segments: `/` before every segment. -/
def segsToChars (segs : List String) : List Char :=
  segs.foldl (fun acc s => acc ++ '/' :: s.data) []

/-- Serialization (`Display` / `as_str`) of a model URL. -/
def urlToString (u : UrlModel) : String :=
  "http://" ++ u.host ++
    (match u.port with
     | none => ""
     | some p => ":" ++ natStr p) ++
    String.mk (segsToChars u.segs) ++
    (match u.query with
     | none => ""
     | some q => "?" ++ q)

/-- The serialized path of a URL string, after parsing it as `reqwest`
does when sending the request: the part of the request line after the
authority. -/
def requestPath (s : String) : Option String :=
  (parseHttpUrl s).map fun u => String.mk (segsToChars u.segs)

/-! ## The client and its request construction -/

/-- The `AwClient` struct (lines 20–25): base URL and identity fields.
The `reqwest::Client` field only carries transport configuration (a
120-second timeout) and does not influence request construction. -/
structure AwClient where
  baseurl : UrlModel
  name : String
  hostname : String
  deriving DecidableEq

/-- Model of `AwClient::new` (lines 38–51): parse `http://{host}:{port}` into the
base URL, failing when it is not a valid URL.  The local host name is
resolved by the external `gethostname` collaborator; the model takes its
result as the `hostname` argument. -/
def awNew (host : String) (port : Nat) (name : String) (hostname : String) :
    Option AwClient :=
  (parseHttpUrl ("http://" ++ host ++ ":" ++ natStr port)).map fun u =>
    { baseurl := u, name := name, hostname := hostname }

/-- URL string built by `get_bucket` (line 54). -/
def get_bucket_url (c : AwClient) (bucketname : String) : String :=
  urlToString c.baseurl ++ "/api/0/buckets/" ++ bucketname

/-- URL string built by `get_buckets` (line 67). -/
def get_buckets_url (c : AwClient) : String :=
  urlToString c.baseurl ++ "/api/0/buckets/"

/-- URL string built by `create_bucket` (line 72), from the bucket's id. -/
def create_bucket_url (c : AwClient) (bucketId : String) : String :=
  urlToString c.baseurl ++ "/api/0/buckets/" ++ bucketId

/-- URL string built by `delete_bucket` (line 98). -/
def delete_bucket_url (c : AwClient) (bucketname : String) : String :=
  urlToString c.baseurl ++ "/api/0/buckets/" ++ bucketname

/-- URL string built by `get_events` (line 111) before query parameters
are appended. -/
def get_events_base_url (c : AwClient) (bucketname : String) : String :=
  urlToString c.baseurl ++ "/api/0/buckets/" ++ bucketname ++ "/events"

/-- URL string built by `insert_event` (line 132). -/
def insert_event_url (c : AwClient) (bucketname : String) : String :=
  urlToString c.baseurl ++ "/api/0/buckets/" ++ bucketname ++ "/events"

/-- URL string built by `insert_events` (line 139). -/
def insert_events_url (c : AwClient) (bucketname : String) : String :=
  urlToString c.baseurl ++ "/api/0/buckets/" ++ bucketname ++ "/events"

/-- URL string built by `heartbeat` (lines 150–153); `pulsetimeStr` is
the `Display` rendering of the `f64` pulsetime, taken as given (binary
floating-point formatting is outside the model). -/
def heartbeat_url (c : AwClient) (bucketname : String) (pulsetimeStr : String) :
    String :=
  urlToString c.baseurl ++ "/api/0/buckets/" ++ bucketname ++
    "/heartbeat?pulsetime=" ++ pulsetimeStr

/-- URL string built by `delete_event` (lines 159–162). -/
def delete_event_url (c : AwClient) (bucketname : String) (eventId : Int) :
    String :=
  urlToString c.baseurl ++ "/api/0/buckets/" ++ bucketname ++ "/events/" ++
    intStr eventId

/-- URL string built by `get_event_count` (line 168). -/
def get_event_count_url (c : AwClient) (bucketname : String) : String :=
  urlToString c.baseurl ++ "/api/0/buckets/" ++ bucketname ++ "/events/count"

/-- URL string built by `get_info` (line 185). -/
def get_info_url (c : AwClient) : String :=
  urlToString c.baseurl ++ "/api/0/info"

/-- A concrete client, as produced by
`awNew "localhost" 5600 "test-client" "test-host"`. -/
def defaultClient : AwClient :=
  { baseurl := { host := "localhost", port := some 5600, segs := [""], query := none }
    name := "test-client"
    hostname := "test-host" }

/-! ## Timestamps and RFC 3339 rendering

`get_events` takes `Option<DateTime<Utc>>` arguments and renders them
with `chrono`'s `DateTime::to_rfc3339`.  A `DateTime<Utc>` is modelled by
its civil fields, with a `Nat` year (`chrono` also supports proleptic
negative years, which are outside the model — its writer prints them
sign-prefixed like the out-of-range positive years `yearChars` covers).
`UtcDateTime.WellFormed` states the field invariants `chrono` guarantees
together with RFC 3339's four-digit year bound; the model type is wider
than `chrono`'s (e.g. a month of 123 is representable here but not in
`chrono`), and the rendering is faithful on every value `chrono` can
hold, including years of five or more digits. -/

structure UtcDateTime where
  year : Nat
  month : Nat
  day : Nat
  hour : Nat
  minute : Nat
  second : Nat
  nanos : Nat
  deriving DecidableEq

/-- Field ranges of a `chrono` `DateTime<Utc>` within the four-digit-year
range RFC 3339 covers. -/
def UtcDateTime.WellFormed (d : UtcDateTime) : Prop :=
  d.year ≤ 9999 ∧ 1 ≤ d.month ∧ d.month ≤ 12 ∧ 1 ≤ d.day ∧ d.day ≤ 31 ∧
    d.hour ≤ 23 ∧ d.minute ≤ 59 ∧ d.second ≤ 59 ∧ d.nanos < 1000000000

instance (d : UtcDateTime) : Decidable d.WellFormed := by
  unfold UtcDateTime.WellFormed; infer_instance

/-- Zero-padded fixed-width decimal rendering (`chrono`'s `%Y`, `%m`,
`%d`, `%H`, `%M`, `%S` and fraction digits). -/
def padDigits : Nat → Nat → List Char
  | 0, _ => []
  | k + 1, n => padDigits k (n / 10) ++ [Nat.digitChar (n % 10)]

/-- Model of `chrono`'s `%.f`-style fraction as used by `to_rfc3339`: empty for
zero nanoseconds, otherwise `.` and 3, 6 or 9 digits depending on the
precision actually present. -/
def fracChars (ns : Nat) : List Char :=
  if ns = 0 then []
  else if ns % 1000000 = 0 then '.' :: padDigits 3 (ns / 1000000)
  else if ns % 1000 = 0 then '.' :: padDigits 6 (ns / 1000)
  else '.' :: padDigits 9 ns

/-- Year rendering of `chrono`'s RFC 3339 writer: years 0–9999 as four
zero-padded digits; other years sign-prefixed with all their digits
(the `{:+05}` fallback, e.g. `+10000`) — which is ISO 8601 expanded
form, not RFC 3339. -/
def yearChars (y : Nat) : List Char :=
  if y ≤ 9999 then padDigits 4 y else '+' :: natDecimal y

/-- Model of `DateTime<Utc>::to_rfc3339`: `YYYY-MM-DDTHH:MM:SS[.fff]+00:00`
(the UTC offset is rendered `+00:00`, not `Z`; years beyond 9999 render
sign-prefixed via `yearChars`). -/
def toRfc3339 (d : UtcDateTime) : String :=
  String.mk
    (yearChars d.year ++ '-' :: padDigits 2 d.month ++ '-' ::
      padDigits 2 d.day ++ 'T' :: padDigits 2 d.hour ++ ':' ::
      padDigits 2 d.minute ++ ':' :: padDigits 2 d.second ++
      fracChars d.nanos ++ ('+' :: '0' :: '0' :: ':' :: '0' :: '0' :: []))

/-- Tail of an RFC 3339 timestamp after the seconds: an optional dot
followed by one or more digits, then the UTC offset `+00:00`. -/
def rfc3339TailOk (rest : List Char) : Bool :=
  if rest = '+' :: '0' :: '0' :: ':' :: '0' :: '0' :: [] then true
  else
    match rest with
    | '.' :: r =>
      let p := breakAt (fun c => ! digitB c) r
      p.1 ≠ [] && p.2 = '+' :: '0' :: '0' :: ':' :: '0' :: '0' :: []
    | _ => false

/-- Checks that a string is an RFC 3339 date-time with UTC offset
`+00:00`: `DDDD-DD-DDTDD:DD:DD`, optional fraction, then `+00:00`. -/
def isRfc3339Utc (s : String) : Bool :=
  match s.data with
  | y1 :: y2 :: y3 :: y4 :: '-' :: m1 :: m2 :: '-' :: d1 :: d2 :: 'T' ::
      h1 :: h2 :: ':' :: i1 :: i2 :: ':' :: s1 :: s2 :: rest =>
    digitB y1 && digitB y2 && digitB y3 && digitB y4 && digitB m1 &&
      digitB m2 && digitB d1 && digitB d2 && digitB h1 && digitB h2 &&
      digitB i1 && digitB i2 && digitB s1 && digitB s2 && rfc3339TailOk rest
  | _ => false

/-! ## Query-pair encoding (`get_events`, lines 103–129)

The three `if let` blocks append `("start", start.to_rfc3339())`,
`("end", stop.to_rfc3339())` and `("limit", limit.to_string())` in that
order through `Url::query_pairs_mut`, which serializes them in
`application/x-www-form-urlencoded` syntax. -/

/-- The name/value pairs appended by `get_events` for a given argument
combination: exactly the present parameters, in source order. -/
def eventsQueryPairs (start stop : Option UtcDateTime) (limit : Option Nat) :
    List (String × String) :=
  (match start with
   | some s => [("start", toRfc3339 s)]
   | none => []) ++
  (match stop with
   | some s => [("end", toRfc3339 s)]
   | none => []) ++
  (match limit with
   | some l => [("limit", natStr l)]
   | none => [])

/-- Characters `form_urlencoded` serializes verbatim: ASCII alphanumerics
and `*`, `-`, `.`, `_`. -/
def formKeep (c : Char) : Bool :=
  let n := c.toNat
  (48 ≤ n && n ≤ 57) || (65 ≤ n && n ≤ 90) || (97 ≤ n && n ≤ 122) ||
    n = 42 || n = 45 || n = 46 || n = 95

/-- The `form_urlencoded` serialization of one character: verbatim when safe,
`+` for space, otherwise percent-encoded UTF-8 bytes. -/
def formEncodeChar (c : Char) : List Char :=
  if formKeep c then [c]
  else if c = ' ' then ['+']
  else (utf8Bytes c.toNat).flatMap pctByte

/-- The `form_urlencoded` serialization of a string. -/
def formEncode (s : String) : String :=
  String.mk (s.data.flatMap formEncodeChar)

/-- The `form_urlencoded` serialization of a pair list: `k=v` joined by `&`. -/
def renderQuery : List (String × String) → String
  | [] => ""
  | [(k, v)] => formEncode k ++ "=" ++ formEncode v
  | (k, v) :: rest => formEncode k ++ "=" ++ formEncode v ++ "&" ++ renderQuery rest

/-- Model of `Url::query_pairs_mut().append_pair(...)`: extend the
existing query (empty or absent queries start fresh). -/
def appendPair (u : UrlModel) (kv : String × String) : UrlModel :=
  { u with
    query := some
      (match u.query with
       | none => renderQuery [kv]
       | some q => if q = "" then renderQuery [kv] else q ++ "&" ++ renderQuery [kv]) }

/-- Append a list of query pairs; the `if let` chain of `get_events`
appends each present pair in turn and leaves the URL untouched when all
three arguments are absent. -/
def appendPairs (u : UrlModel) (pairs : List (String × String)) : UrlModel :=
  pairs.foldl appendPair u

/-- The final URL of `get_events` (lines 110–127): parse the formatted
events URL (`unwrap` panics on failure, modelled by `Option`), append the
present query pairs, serialize. -/
def get_events_final_url (c : AwClient) (bucketname : String)
    (start stop : Option UtcDateTime) (limit : Option Nat) : Option String :=
  (parseHttpUrl (get_events_base_url c bucketname)).map fun u =>
    urlToString (appendPairs u (eventsQueryPairs start stop limit))

/-! ## Character sets quantified over by the URL claims -/

/-- URL-safe characters in the sense of the spec's path claims: the RFC
3986 unreserved set — ASCII alphanumerics and `-`, `.`, `_`, `~`. -/
def urlSafeChar (c : Char) : Bool :=
  let n := c.toNat
  (48 ≤ n && n ≤ 57) || (65 ≤ n && n ≤ 90) || (97 ≤ n && n ≤ 122) ||
    n = 45 || n = 46 || n = 95 || n = 126

/-- Host characters quantified over by the base-URL theorems: lowercase
ASCII letters, digits, `-`, `.`, `_` — ordinary registered names, which
the WHATWG host parser passes through unchanged. -/
def hostSafeChar (c : Char) : Bool :=
  let n := c.toNat
  (97 ≤ n && n ≤ 122) || (48 ≤ n && n ≤ 57) || n = 45 || n = 46 || n = 95

/-! ## JSON values, events and buckets

The `Bucket`, `BucketMetadata` and `Event` types come from the
`aw_models` crate, which is part of this repository but not under the
sources given here; their shapes are modelled from the spec (§3). -/

/-- A JSON value, the target of the `serde_json` serialization the client
delegates to. -/
inductive Json where
  | null
  | bool (b : Bool)
  | num (n : Int)
  | str (s : String)
  | arr (xs : List Json)
  | obj (fields : List (String × Json))

/-- Modelled from the spec: `Event` (§3) — optional server-assigned
integer id, start timestamp, duration in seconds, and a free-form
key/value data mapping.  The duration is carried as an integer
measurement; only its presence as a field matters to the claims below. -/
structure Event where
  id : Option Int
  timestamp : UtcDateTime
  duration : Int
  data : List (String × Json)

/-- The derived `Clone` of `Event`: a field-by-field copy
(`event.clone()`, line 133). -/
def cloneEvent (e : Event) : Event :=
  { id := e.id, timestamp := e.timestamp, duration := e.duration, data := e.data }

/-- Serialization of an `Event` to JSON: the optional id when present,
then timestamp, duration and data. -/
def serializeEvent (e : Event) : Json :=
  .obj
    ((match e.id with
      | some i => [("id", .num i)]
      | none => []) ++
      [("timestamp", .str (toRfc3339 e.timestamp)),
       ("duration", .num e.duration),
       ("data", .obj e.data)])

/-- Modelled from the spec: `BucketMetadata` (§3) — a nested structure
(e.g., display name) that defaults to empty. -/
structure BucketMetadata where
  display_name : Option String

/-- Model of `BucketMetadata::default()` (line 89): all fields empty. -/
def BucketMetadata.empty : BucketMetadata := { display_name := none }

/-- Modelled from the spec: `Bucket` (§3) — identifier, type tag, client
name, host name, key/value data, metadata, and optional events and
creation/update timestamps.  Field names follow the source
(`create_bucket_simple`, lines 82–93). -/
structure Bucket where
  bid : Option Int
  id : String
  client : String
  _type : String
  hostname : String
  data : List (String × Json)
  metadata : BucketMetadata
  events : Option (List Event)
  created : Option UtcDateTime
  last_updated : Option UtcDateTime

/-- Serialization of a `Bucket` to JSON, each optional field present only
when set. -/
def serializeBucket (b : Bucket) : Json :=
  .obj
    ((match b.bid with
      | some i => [("bid", .num i)]
      | none => []) ++
      [("id", .str b.id), ("client", .str b.client), ("type", .str b._type),
       ("hostname", .str b.hostname), ("data", .obj b.data),
       ("metadata", .obj
         (match b.metadata.display_name with
          | some n => [("display_name", .str n)]
          | none => []))] ++
      (match b.events with
       | some es => [("events", .arr (es.map serializeEvent))]
       | none => []) ++
      (match b.created with
       | some t => [("created", .str (toRfc3339 t))]
       | none => []) ++
      (match b.last_updated with
       | some t => [("last_updated", .str (toRfc3339 t))]
       | none => []))

/-- An HTTP request as the client hands it to the transport: method, URL
string, and optional JSON body. -/
structure Request where
  method : String
  url : String
  body : Option Json

/-- Request issued by `create_bucket` (lines 71–75): POST the bucket's
JSON to the bucket URL derived from `bucket.id`. -/
def create_bucket_request (c : AwClient) (bucket : Bucket) : Request :=
  { method := "POST"
    url := create_bucket_url c bucket.id
    body := some (serializeBucket bucket) }

/-- The bucket value constructed by `create_bucket_simple` (lines 82–93):
the given id and type, the client's stored name and hostname, empty data
and metadata, and no events or timestamps. -/
def simpleBucket (c : AwClient) (bucketname buckettype : String) : Bucket :=
  { bid := none
    id := bucketname
    client := c.name
    _type := buckettype
    hostname := c.hostname
    data := []
    metadata := BucketMetadata.empty
    events := none
    created := none
    last_updated := none }

/-- Request issued by `create_bucket_simple` (lines 77–95): build the
simple bucket, then call `create_bucket`. -/
def create_bucket_simple_request (c : AwClient) (bucketname buckettype : String) :
    Request :=
  create_bucket_request c (simpleBucket c bucketname buckettype)

/-- Request issued by `insert_event` (lines 131–136): POST the JSON of
the one-element vector `vec![event.clone()]`. -/
def insert_event_request (c : AwClient) (bucketname : String) (event : Event) :
    Request :=
  { method := "POST"
    url := insert_event_url c bucketname
    body := some (.arr ([cloneEvent event].map serializeEvent)) }

/-- Request issued by `insert_events` (lines 138–142): POST the JSON of
the full vector. -/
def insert_events_request (c : AwClient) (bucketname : String)
    (events : List Event) : Request :=
  { method := "POST"
    url := insert_events_url c bucketname
    body := some (.arr (events.map serializeEvent)) }

/-- Request issued by `heartbeat` (lines 144–156): POST the event's JSON
to the heartbeat URL. -/
def heartbeat_request (c : AwClient) (bucketname : String) (event : Event)
    (pulsetimeStr : String) : Request :=
  { method := "POST"
    url := heartbeat_url c bucketname pulsetimeStr
    body := some (serializeEvent event) }

/-- Request issued by `delete_bucket` (lines 97–101). -/
def delete_bucket_request (c : AwClient) (bucketname : String) : Request :=
  { method := "DELETE", url := delete_bucket_url c bucketname, body := none }

/-- Request issued by `delete_event` (lines 158–165). -/
def delete_event_request (c : AwClient) (bucketname : String) (eventId : Int) :
    Request :=
  { method := "DELETE", url := delete_event_url c bucketname eventId, body := none }

/-! ## Response handling of the mutating operations

Each mutating operation runs `...send().await?;` and returns `Ok(())`:
the `?` propagates transport errors, and the response — whatever its
status — is dropped.  Each call is modelled as a function of the
transport outcome (`none` = transport error, `some r` = a response). -/

/-- A transport-level failure (connection, DNS, timeout). -/
inductive ClientError where
  | transport
  deriving DecidableEq

/-- Result handling of `create_bucket` (lines 73–74). -/
def create_bucket_call (resp : Option Response) : Except ClientError Unit :=
  match resp with
  | none => .error .transport
  | some _ => .ok ()

/-- Result handling of `create_bucket_simple` (line 94): delegated to
`create_bucket`. -/
def create_bucket_simple_call (resp : Option Response) : Except ClientError Unit :=
  create_bucket_call resp

/-- Result handling of `delete_bucket` (lines 99–100). -/
def delete_bucket_call (resp : Option Response) : Except ClientError Unit :=
  match resp with
  | none => .error .transport
  | some _ => .ok ()

/-- Result handling of `insert_event` (lines 134–135). -/
def insert_event_call (resp : Option Response) : Except ClientError Unit :=
  match resp with
  | none => .error .transport
  | some _ => .ok ()

/-- Result handling of `insert_events` (lines 140–141). -/
def insert_events_call (resp : Option Response) : Except ClientError Unit :=
  match resp with
  | none => .error .transport
  | some _ => .ok ()

/-- Result handling of `heartbeat` (lines 154–155). -/
def heartbeat_call (resp : Option Response) : Except ClientError Unit :=
  match resp with
  | none => .error .transport
  | some _ => .ok ()

/-- Result handling of `delete_event` (lines 163–164). -/
def delete_event_call (resp : Option Response) : Except ClientError Unit :=
  match resp with
  | none => .error .transport
  | some _ => .ok ()

/-! ## The operations as state transformers

Every method takes `&self`: it can read the client's fields but not
write them.  `runOp` dispatches one call — building its request through
the definitions above and handling the supplied transport outcome — and
returns the client in its post-call state. -/

/-- One client operation with its arguments. -/
inductive OpCall where
  | getBucket (bucketname : String)
  | getBuckets
  | createBucket (bucket : Bucket)
  | createBucketSimple (bucketname buckettype : String)
  | deleteBucket (bucketname : String)
  | getEvents (bucketname : String) (start stop : Option UtcDateTime)
      (limit : Option Nat)
  | insertEvent (bucketname : String) (event : Event)
  | insertEvents (bucketname : String) (events : List Event)
  | heartbeat (bucketname : String) (event : Event) (pulsetimeStr : String)
  | deleteEvent (bucketname : String) (eventId : Int)
  | getEventCount (bucketname : String)
  | getInfo

/-- Coarse outcome of one operation, at the stage the pipelines above
model. -/
inductive OpOutcome where
  | transportError
  | ok
  | statusError (code : Nat)
  | decodeBody (body : String)
  | count (n : Int)
  | panicked

/-- Run one operation: the request it builds (`none` when the
`get_events` URL parse panics), its outcome for the given transport
result, and the client state after the call. -/
def runOp (c : AwClient) (op : OpCall) (resp : Option Response) :
    Option Request × OpOutcome × AwClient :=
  match op with
  | .getBucket b =>
    (some { method := "GET", url := get_bucket_url c b, body := none },
     (match resp with
      | none => .transportError
      | some r =>
        match get_bucket_handle r with
        | .statusError k => .statusError k
        | .decodeBody s => .decodeBody s),
     c)
  | .getBuckets =>
    (some { method := "GET", url := get_buckets_url c, body := none },
     (match resp with
      | none => .transportError
      | some r => .decodeBody r.body),
     c)
  | .createBucket b =>
    (some (create_bucket_request c b),
     (match create_bucket_call resp with
      | .error _ => .transportError
      | .ok _ => .ok),
     c)
  | .createBucketSimple b t =>
    (some (create_bucket_simple_request c b t),
     (match create_bucket_simple_call resp with
      | .error _ => .transportError
      | .ok _ => .ok),
     c)
  | .deleteBucket b =>
    (some (delete_bucket_request c b),
     (match delete_bucket_call resp with
      | .error _ => .transportError
      | .ok _ => .ok),
     c)
  | .getEvents b start stop limit =>
    ((get_events_final_url c b start stop limit).map fun u =>
       { method := "GET", url := u, body := none },
     (match get_events_final_url c b start stop limit with
      | none => .panicked
      | some _ =>
        match resp with
        | none => .transportError
        | some r => .decodeBody r.body),
     c)
  | .insertEvent b e =>
    (some (insert_event_request c b e),
     (match insert_event_call resp with
      | .error _ => .transportError
      | .ok _ => .ok),
     c)
  | .insertEvents b es =>
    (some (insert_events_request c b es),
     (match insert_events_call resp with
      | .error _ => .transportError
      | .ok _ => .ok),
     c)
  | .heartbeat b e p =>
    (some (heartbeat_request c b e p),
     (match heartbeat_call resp with
      | .error _ => .transportError
      | .ok _ => .ok),
     c)
  | .deleteEvent b i =>
    (some (delete_event_request c b i),
     (match delete_event_call resp with
      | .error _ => .transportError
      | .ok _ => .ok),
     c)
  | .getEventCount b =>
    (some { method := "GET", url := get_event_count_url c b, body := none },
     (match resp with
      | none => .transportError
      | some r =>
        match get_event_count_handle r with
        | .statusError k => .statusError k
        | .ok n => .count n
        | .malformedCountError => .panicked
        | .panicked => .panicked),
     c)
  | .getInfo =>
    (some { method := "GET", url := get_info_url c, body := none },
     (match resp with
      | none => .transportError
      | some r => .decodeBody r.body),
     c)

/-! # Helper lemmas -/

/-! ## Digits and decimal rendering -/

theorem digitB_digitChar {n : Nat} (h : n < 10) :
    digitB (Nat.digitChar n) = true := by
  interval_cases n <;> rfl

theorem digitVal_digitChar {n : Nat} (h : n < 10) :
    digitVal (Nat.digitChar n) = n := by
  interval_cases n <;> rfl

theorem natDecimalGo_digits :
    ∀ fuel n, n < fuel → ∀ c ∈ natDecimalGo fuel n, digitB c = true := by
  intro fuel
  induction fuel with
  | zero => intro n h; omega
  | succ f ih =>
    intro n h c hc
    unfold natDecimalGo at hc
    by_cases h10 : n < 10
    · rw [if_pos h10] at hc
      simp only [List.mem_singleton] at hc
      subst hc; exact digitB_digitChar h10
    · rw [if_neg h10] at hc
      rcases List.mem_append.mp hc with h1 | h2
      · exact ih (n / 10) (by omega) c h1
      · simp only [List.mem_singleton] at h2
        subst h2; exact digitB_digitChar (Nat.mod_lt _ (by omega))

theorem natDecimalGo_ne_nil :
    ∀ fuel n, n < fuel → natDecimalGo fuel n ≠ [] := by
  intro fuel
  cases fuel with
  | zero => intro n h; omega
  | succ f =>
    intro n _
    unfold natDecimalGo
    by_cases h10 : n < 10
    · rw [if_pos h10]; simp
    · rw [if_neg h10]; simp

theorem natDecimalGo_fold :
    ∀ fuel n, n < fuel →
      (natDecimalGo fuel n).foldl (fun a c => 10 * a + digitVal c) 0 = n := by
  intro fuel
  induction fuel with
  | zero => intro n h; omega
  | succ f ih =>
    intro n h
    unfold natDecimalGo
    by_cases h10 : n < 10
    · rw [if_pos h10]
      simp [digitVal_digitChar h10]
    · rw [if_neg h10]
      rw [List.foldl_append]
      rw [ih (n / 10) (by omega)]
      simp only [List.foldl_cons, List.foldl_nil]
      rw [digitVal_digitChar (Nat.mod_lt _ (by omega))]
      omega

theorem natDecimal_digits {n : Nat} : ∀ c ∈ natDecimal n, digitB c = true :=
  natDecimalGo_digits (n + 1) n (Nat.lt_succ_self n)

theorem natDecimal_ne_nil {n : Nat} : natDecimal n ≠ [] :=
  natDecimalGo_ne_nil (n + 1) n (Nat.lt_succ_self n)

theorem parseDecimal?_natDecimal {n : Nat} :
    parseDecimal? (natDecimal n) = some n := by
  unfold parseDecimal? natDecimal
  rw [if_pos]
  · rw [natDecimalGo_fold (n + 1) n (Nat.lt_succ_self n)]
  · exact ⟨natDecimal_ne_nil, List.all_eq_true.mpr natDecimal_digits⟩

theorem parseDecimal?_eq_some {l : List Char} {n : Nat}
    (h : parseDecimal? l = some n) : l ≠ [] ∧ ∀ c ∈ l, digitB c = true := by
  unfold parseDecimal? at h
  by_cases hc : l ≠ [] ∧ l.all digitB
  · exact ⟨hc.1, List.all_eq_true.mp hc.2⟩
  · rw [if_neg hc] at h; exact absurd h (by simp)

/-! ## Character-class facts -/

theorem digitB_not_ws {c : Char} (h : digitB c = true) :
    rustIsWhitespace c = false := by
  simp only [digitB, Bool.and_eq_true, decide_eq_true_eq] at h
  simp only [rustIsWhitespace, Bool.or_eq_false_iff, Bool.and_eq_false_iff,
    decide_eq_false_iff_not]
  omega

theorem digitB_urlSafe {c : Char} (h : digitB c = true) :
    urlSafeChar c = true := by
  simp only [digitB, Bool.and_eq_true, decide_eq_true_eq] at h
  simp only [urlSafeChar, Bool.or_eq_true, Bool.and_eq_true, decide_eq_true_eq]
  omega

theorem urlSafe_pathKeep {c : Char} (h : urlSafeChar c = true) :
    pathKeep c = true := by
  simp only [urlSafeChar, Bool.or_eq_true, Bool.and_eq_true,
    decide_eq_true_eq] at h
  simp only [pathKeep, Bool.and_eq_true, Bool.not_eq_true',
    Bool.or_eq_false_iff, decide_eq_true_eq, decide_eq_false_iff_not]
  omega

theorem urlSafe_not_query_hash {c : Char} (h : urlSafeChar c = true) :
    (decide (c = '?') || decide (c = '#')) = false := by
  simp only [urlSafeChar, Bool.or_eq_true, Bool.and_eq_true,
    decide_eq_true_eq] at h
  have : c.toNat ≠ 63 ∧ c.toNat ≠ 35 := by omega
  simp only [Bool.or_eq_false_iff, decide_eq_false_iff_not]
  constructor <;> intro hh <;> subst hh <;> simp_all

theorem hostSafe_allowed {c : Char} (h : hostSafeChar c = true) :
    hostAllowedChar c = true := by
  simp only [hostSafeChar, Bool.or_eq_true, Bool.and_eq_true,
    decide_eq_true_eq] at h
  simp only [hostAllowedChar, Bool.and_eq_true, Bool.not_eq_true',
    Bool.or_eq_false_iff, decide_eq_true_eq, decide_eq_false_iff_not]
  omega

theorem hostSafe_lower {c : Char} (h : hostSafeChar c = true) :
    lowerChar c = c := by
  simp only [hostSafeChar, Bool.or_eq_true, Bool.and_eq_true,
    decide_eq_true_eq] at h
  unfold lowerChar
  rw [if_neg (by omega)]

theorem hostSafe_not_authStop {c : Char} (h : hostSafeChar c = true) :
    authStopChar c = false := by
  simp only [hostSafeChar, Bool.or_eq_true, Bool.and_eq_true,
    decide_eq_true_eq] at h
  have h47 : c.toNat ≠ 47 ∧ c.toNat ≠ 63 ∧ c.toNat ≠ 35 := by omega
  simp only [authStopChar, Bool.or_eq_false_iff, decide_eq_false_iff_not]
  refine ⟨⟨?_, ?_⟩, ?_⟩ <;> intro hh <;> subst hh <;> simp_all

theorem hostSafe_not_colon {c : Char} (h : hostSafeChar c = true) :
    (decide (c = ':')) = false := by
  simp only [hostSafeChar, Bool.or_eq_true, Bool.and_eq_true,
    decide_eq_true_eq] at h
  have : c.toNat ≠ 58 := by omega
  simp only [decide_eq_false_iff_not]
  intro hh; subst hh; simp_all

theorem hostSafe_not_userinfo {c : Char} (h : hostSafeChar c = true) :
    (decide (c = '@') || decide (c = '[') || decide (c = ']')) = false := by
  simp only [hostSafeChar, Bool.or_eq_true, Bool.and_eq_true,
    decide_eq_true_eq] at h
  have : c.toNat ≠ 64 ∧ c.toNat ≠ 91 ∧ c.toNat ≠ 93 := by omega
  simp only [Bool.or_eq_false_iff, decide_eq_false_iff_not]
  refine ⟨⟨?_, ?_⟩, ?_⟩ <;> intro hh <;> subst hh <;> simp_all

theorem digitB_not_authStop {c : Char} (h : digitB c = true) :
    authStopChar c = false := by
  simp only [digitB, Bool.and_eq_true, decide_eq_true_eq] at h
  have : c.toNat ≠ 47 ∧ c.toNat ≠ 63 ∧ c.toNat ≠ 35 := by omega
  simp only [authStopChar, Bool.or_eq_false_iff, decide_eq_false_iff_not]
  refine ⟨⟨?_, ?_⟩, ?_⟩ <;> intro hh <;> subst hh <;> simp_all

theorem digitB_not_userinfo {c : Char} (h : digitB c = true) :
    (decide (c = '@') || decide (c = '[') || decide (c = ']')) = false := by
  simp only [digitB, Bool.and_eq_true, decide_eq_true_eq] at h
  have : c.toNat ≠ 64 ∧ c.toNat ≠ 91 ∧ c.toNat ≠ 93 := by omega
  simp only [Bool.or_eq_false_iff, decide_eq_false_iff_not]
  refine ⟨⟨?_, ?_⟩, ?_⟩ <;> intro hh <;> subst hh <;> simp_all

/-! ## List helpers: `dropWhile`, `breakAt`, `splitSlash`, maps and folds -/

theorem dropWhile_append_of_all {p : Char → Bool} {l m : List Char}
    (h : ∀ c ∈ l, p c = true) :
    (l ++ m).dropWhile p = m.dropWhile p := by
  induction l with
  | nil => rfl
  | cons c t ih =>
    simp only [List.cons_append, List.dropWhile_cons,
      h c (List.mem_cons_self c t)]
    exact ih fun x hx => h x (List.mem_cons_of_mem c hx)

theorem dropWhile_of_head_false {p : Char → Bool} {c : Char} {t : List Char}
    (h : p c = false) : (c :: t).dropWhile p = c :: t := by
  simp [List.dropWhile_cons, h]

theorem dropWhile_of_all_false {p : Char → Bool} {l : List Char}
    (h : ∀ c ∈ l, p c = false) : l.dropWhile p = l := by
  cases l with
  | nil => rfl
  | cons c t => exact dropWhile_of_head_false (h c (List.mem_cons_self c t))

/-- Applying `str::trim` to a whitespace–content–whitespace sandwich keeps exactly
the content, provided the content has no surrounding whitespace itself. -/
theorem trimChars_sandwich {w1 s w2 : List Char}
    (hw1 : ∀ c ∈ w1, rustIsWhitespace c = true)
    (hw2 : ∀ c ∈ w2, rustIsWhitespace c = true)
    (hs : s ≠ []) (hns : ∀ c ∈ s, rustIsWhitespace c = false) :
    trimChars (w1 ++ s ++ w2) = s := by
  unfold trimChars
  rw [List.append_assoc, dropWhile_append_of_all hw1]
  cases s with
  | nil => exact absurd rfl hs
  | cons c t =>
    rw [List.cons_append, List.dropWhile_cons,
      hns c (List.mem_cons_self c t)]
    simp only [Bool.false_eq_true, if_false]
    rw [List.reverse_cons, List.reverse_append, List.append_assoc]
    rw [dropWhile_append_of_all (fun x hx => hw2 x (List.mem_reverse.mp hx))]
    have : ∀ x ∈ t.reverse ++ [c], rustIsWhitespace x = false := by
      intro x hx
      rcases List.mem_append.mp hx with h1 | h2
      · exact hns x (List.mem_cons_of_mem c (List.mem_reverse.mp h1))
      · simp only [List.mem_singleton] at h2
        subst h2; exact hns x (List.mem_cons_self x t)
    rw [dropWhile_of_all_false this]
    rw [List.reverse_append]
    simp

theorem breakAt_cons_pos {p : Char → Bool} {c : Char} {t : List Char}
    (h : p c = true) : breakAt p (c :: t) = ([], c :: t) := by
  simp [breakAt, h]

theorem breakAt_append_of_all {p : Char → Bool} {l m : List Char}
    (h : ∀ c ∈ l, p c = false) :
    breakAt p (l ++ m) = (l ++ (breakAt p m).1, (breakAt p m).2) := by
  induction l with
  | nil => simp
  | cons c t ih =>
    simp only [List.cons_append, breakAt, h c (List.mem_cons_self c t),
      Bool.false_eq_true, if_false, List.append_eq]
    rw [ih fun x hx => h x (List.mem_cons_of_mem c hx)]

theorem breakAt_of_all_false {p : Char → Bool} {l : List Char}
    (h : ∀ c ∈ l, p c = false) : breakAt p l = (l, []) := by
  have := breakAt_append_of_all (m := []) h
  simpa [breakAt] using this

theorem splitSlash_cons_slash (t : List Char) :
    splitSlash ('/' :: t) = [] :: splitSlash t := by
  conv_lhs => unfold splitSlash
  rw [if_pos rfl]

theorem splitSlash_cons_ne {c : Char} (t : List Char) (h : c ≠ '/') :
    splitSlash (c :: t) =
      match splitSlash t with
      | [] => [[c]]
      | s :: rest => (c :: s) :: rest := by
  conv_lhs => unfold splitSlash
  rw [if_neg h]

theorem splitSlash_of_no_slash {l : List Char} (h : ∀ c ∈ l, c ≠ '/') :
    splitSlash l = [l] := by
  induction l with
  | nil => rfl
  | cons c t ih =>
    rw [splitSlash_cons_ne t (h c (List.mem_cons_self c t))]
    rw [ih fun x hx => h x (List.mem_cons_of_mem c hx)]

theorem splitSlash_append_sep {l m : List Char} (h : ∀ c ∈ l, c ≠ '/') :
    splitSlash (l ++ '/' :: m) = l :: splitSlash m := by
  induction l with
  | nil => simp [splitSlash_cons_slash]
  | cons c t ih =>
    rw [List.cons_append,
      splitSlash_cons_ne _ (h c (List.mem_cons_self c t)),
      ih fun x hx => h x (List.mem_cons_of_mem c hx)]

theorem map_id_of_fixed {α : Type} {f : α → α} {l : List α}
    (h : ∀ c ∈ l, f c = c) : l.map f = l := by
  induction l with
  | nil => rfl
  | cons c t ih =>
    simp only [List.map_cons, h c (List.mem_cons_self c t)]
    rw [ih fun x hx => h x (List.mem_cons_of_mem c hx)]

theorem flatMap_singleton_of_fixed {f : Char → List Char} {l : List Char}
    (h : ∀ c ∈ l, f c = [c]) : l.flatMap f = l := by
  induction l with
  | nil => rfl
  | cons c t ih =>
    simp only [List.flatMap_cons, h c (List.mem_cons_self c t)]
    rw [ih fun x hx => h x (List.mem_cons_of_mem c hx)]
    rfl

theorem encSeg_of_safe {l : List Char} (h : ∀ c ∈ l, urlSafeChar c = true) :
    encSeg l = l := by
  unfold encSeg
  exact flatMap_singleton_of_fixed fun c hc => by
    unfold encPathChar
    rw [if_pos (urlSafe_pathKeep (h c hc))]

theorem segsToChars_foldl (a : List Char) (segs : List String) :
    segs.foldl (fun acc s => acc ++ '/' :: s.data) a =
      a ++ segs.flatMap (fun s => '/' :: s.data) := by
  induction segs generalizing a with
  | nil => simp
  | cons s rest ih =>
    simp only [List.foldl_cons, List.flatMap_cons]
    rw [ih]
    simp [List.append_assoc]

/-! ## `padDigits` facts -/

theorem padDigits_length (k n : Nat) : (padDigits k n).length = k := by
  induction k generalizing n with
  | zero => rfl
  | succ k ih => simp [padDigits, ih]

theorem padDigits_digits (k n : Nat) : ∀ c ∈ padDigits k n, digitB c = true := by
  induction k generalizing n with
  | zero => intro c hc; simp [padDigits] at hc
  | succ k ih =>
    intro c hc
    unfold padDigits at hc
    rcases List.mem_append.mp hc with h1 | h2
    · exact ih (n / 10) c h1
    · simp only [List.mem_singleton] at h2
      subst h2
      exact digitB_digitChar (Nat.mod_lt _ (by omega))

theorem list_len_two {l : List Char} (h : l.length = 2) :
    ∃ a b, l = [a, b] := by
  match l, h with
  | [a, b], _ => exact ⟨a, b, rfl⟩

theorem list_len_four {l : List Char} (h : l.length = 4) :
    ∃ a b c d, l = [a, b, c, d] := by
  match l, h with
  | [a, b, c, d], _ => exact ⟨a, b, c, d, rfl⟩

/-! ## URL-parse lemmas -/

theorem string_mk_data (s : String) : String.mk s.data = s := rfl

theorem intDecimal_chars {i : Int} :
    ∀ c ∈ intDecimal i, digitB c = true ∨ c = '-' := by
  intro c hc
  unfold intDecimal at hc
  by_cases h : i < 0
  · rw [if_pos h] at hc
    rcases List.mem_cons.mp hc with h1 | h2
    · right; exact h1
    · left; exact natDecimal_digits c h2
  · rw [if_neg h] at hc
    left; exact natDecimal_digits c hc

theorem digitB_not_slash {c : Char} (h : digitB c = true) : c ≠ '/' := by
  simp only [digitB, Bool.and_eq_true, decide_eq_true_eq] at h
  intro hh; subst hh; simp_all

theorem intDecimal_no_slash {i : Int} : ∀ c ∈ intDecimal i, c ≠ '/' := by
  intro c hc
  rcases intDecimal_chars c hc with h | h
  · exact digitB_not_slash h
  · subst h; decide

theorem intDecimal_urlSafe {i : Int} : ∀ c ∈ intDecimal i, urlSafeChar c = true := by
  intro c hc
  rcases intDecimal_chars c hc with h | h
  · exact digitB_urlSafe h
  · subst h; decide

/-- Over a sequence of ordinary (non-dot) segments, WHATWG dot-segment
processing appends them all. -/
theorem procSegs_no_dots {l : List (List Char)}
    (h : ∀ s ∈ l, s ≠ ['.'] ∧ s ≠ ['.', '.']) :
    ∀ acc, procSegs acc l = acc ++ l := by
  induction l with
  | nil => intro acc; simp [procSegs]
  | cons seg rest ih =>
    intro acc
    have hseg := h seg (List.mem_cons_self seg rest)
    unfold procSegs
    rw [if_neg hseg.2, if_neg hseg.1]
    rw [ih (fun s hs => h s (List.mem_cons_of_mem seg hs))]
    simp

/-- Authority characters of a safe host followed by `:port` never stop
the authority scan. -/
theorem auth_no_stop {host : List Char} {port : Nat}
    (hh : ∀ c ∈ host, hostSafeChar c = true) :
    ∀ c ∈ host ++ ':' :: natDecimal port, authStopChar c = false := by
  intro c hc
  rcases List.mem_append.mp hc with h1 | h2
  · exact hostSafe_not_authStop (hh c h1)
  · rcases List.mem_cons.mp h2 with h3 | h4
    · subst h3; decide
    · exact digitB_not_authStop (natDecimal_digits c h4)

theorem auth_no_userinfo {host : List Char} {port : Nat}
    (hh : ∀ c ∈ host, hostSafeChar c = true) :
    (host ++ ':' :: natDecimal port).any
      (fun c => decide (c = '@') || decide (c = '[') || decide (c = ']')) = false := by
  refine List.any_eq_false.mpr fun c hc => ?_
  rw [Bool.not_eq_true]
  rcases List.mem_append.mp hc with h1 | h2
  · exact hostSafe_not_userinfo (hh c h1)
  · rcases List.mem_cons.mp h2 with h3 | h4
    · subst h3; decide
    · exact digitB_not_userinfo (natDecimal_digits c h4)

theorem auth_colon_split {host : List Char} {port : Nat}
    (hh : ∀ c ∈ host, hostSafeChar c = true) :
    breakAt (fun c => decide (c = ':')) (host ++ ':' :: natDecimal port) =
      (host, ':' :: natDecimal port) := by
  rw [breakAt_append_of_all (fun c hc => hostSafe_not_colon (hh c hc))]
  rw [breakAt_cons_pos (by decide)]
  simp

theorem parsePort_colon_nat {port : Nat} (hp : port < 65536) (h80 : port ≠ 80) :
    parsePort (':' :: natDecimal port) = some (some port) := by
  simp only [parsePort]
  rw [if_neg natDecimal_ne_nil]
  rw [parseDecimal?_natDecimal]
  show (if port ≥ 65536 then none
    else if port = 80 then some none else some (some port)) = some (some port)
  rw [if_neg (by omega), if_neg h80]

theorem hostAllowed_of_safe {host : List Char}
    (hh : ∀ c ∈ host, hostSafeChar c = true) :
    host.all hostAllowedChar = true := by
  rw [List.all_eq_true]
  exact fun c hc => hostSafe_allowed (hh c hc)

theorem lower_fixed_of_safe {host : List Char}
    (hh : ∀ c ∈ host, hostSafeChar c = true) :
    host.map lowerChar = host :=
  map_id_of_fixed fun c hc => hostSafe_lower (hh c hc)

/-- Parsing the base-URL string `http://{host}:{port}` built by
`AwClient::new`: for a safe lowercase host and a non-default `u16` port
it yields the host, the port, and the normalized root path `/`. -/
theorem parseHttpUrl_base {host : String} {port : Nat}
    (hh1 : host.data ≠ []) (hh2 : ∀ c ∈ host.data, hostSafeChar c = true)
    (hnum : endsInNumber host.data = false)
    (hp : port < 65536) (h80 : port ≠ 80) :
    parseHttpUrl ("http://" ++ host ++ ":" ++ natStr port) =
      some { host := host, port := some port, segs := [""], query := none } := by
  have hdata : ("http://" ++ host ++ ":" ++ natStr port).data =
      "http://".data ++ (host.data ++ ':' :: natDecimal port) := by
    simp [String.data_append, natStr]
  unfold parseHttpUrl
  rw [hdata]
  rw [show (7 : Nat) = ("http://".data).length from rfl]
  rw [List.take_left, List.drop_left]
  rw [if_pos rfl]
  unfold parseAfterScheme
  rw [breakAt_of_all_false (auth_no_stop hh2)]
  simp only [auth_no_userinfo hh2, Bool.false_eq_true, if_false]
  rw [auth_colon_split hh2]
  simp only [parsePort_colon_nat hp h80]
  rw [if_neg (by
    push_neg
    exact ⟨hh1, by rw [hostAllowed_of_safe hh2]⟩)]
  simp only [hnum, Bool.false_eq_true, if_false, List.any_nil]
  rw [lower_fixed_of_safe hh2, string_mk_data]
  rfl

/-- Running `AwClient::new` on a safe lowercase host and non-default `u16` port:
the client exists and stores the parsed base URL and identity fields. -/
theorem awNew_eq {host : String} {port : Nat} (name hn : String)
    (hh1 : host.data ≠ []) (hh2 : ∀ c ∈ host.data, hostSafeChar c = true)
    (hnum : endsInNumber host.data = false)
    (hp : port < 65536) (h80 : port ≠ 80) :
    awNew host port name hn =
      some { baseurl := { host := host, port := some port, segs := [""], query := none }
             name := name, hostname := hn } := by
  unfold awNew
  rw [parseHttpUrl_base hh1 hh2 hnum hp h80]
  rfl

/-- Parsing the base-URL string for a host that ends in a number: the
model rejects it (the real parser hands it to the IPv4 host parser,
which normalizes the serialization to dotted-decimal or fails — either
way the verbatim registered-name reading the other lemmas give is
impossible), so no client with such a host is constructible in the
model. -/
theorem parseHttpUrl_base_ipv4_none {host : String} {port : Nat}
    (hh1 : host.data ≠ []) (hh2 : ∀ c ∈ host.data, hostSafeChar c = true)
    (hnum : endsInNumber host.data = true) :
    parseHttpUrl ("http://" ++ host ++ ":" ++ natStr port) = none := by
  have hdata : ("http://" ++ host ++ ":" ++ natStr port).data =
      "http://".data ++ (host.data ++ ':' :: natDecimal port) := by
    simp [String.data_append, natStr]
  unfold parseHttpUrl
  rw [hdata]
  rw [show (7 : Nat) = ("http://".data).length from rfl]
  rw [List.take_left, List.drop_left]
  rw [if_pos rfl]
  unfold parseAfterScheme
  rw [breakAt_of_all_false (auth_no_stop hh2)]
  simp only [auth_no_userinfo hh2, Bool.false_eq_true, if_false]
  rw [auth_colon_split hh2]
  simp only [hnum]
  rw [if_neg (by
    push_neg
    exact ⟨hh1, by rw [hostAllowed_of_safe hh2]⟩)]
  simp

/-- Parsing `http://{host}:{port}//{tail}`, the shape of every request
URL the client builds from its base URL: the path keeps the leading
empty segment (the double slash) followed by the `/`-split segments of
`tail`, provided those segments are ordinary and self-encoding. -/
theorem parseHttpUrl_two_slash {host : String} {port : Nat}
    (hh1 : host.data ≠ []) (hh2 : ∀ c ∈ host.data, hostSafeChar c = true)
    (hnum : endsInNumber host.data = false)
    (hp : port < 65536) (h80 : port ≠ 80)
    (tail : List Char) (segs : List (List Char))
    (hq : tail.any (fun c => decide (c = '?') || decide (c = '#')) = false)
    (hsplit : splitSlash tail = segs)
    (hnodot : ∀ s ∈ segs, s ≠ ['.'] ∧ s ≠ ['.', '.'])
    (henc : ∀ s ∈ segs, encSeg s = s) :
    parseHttpUrl (String.mk ("http://".data ++
        (host.data ++ ':' :: natDecimal port) ++ '/' :: '/' :: tail)) =
      some { host := host, port := some port,
             segs := "" :: segs.map String.mk, query := none } := by
  unfold parseHttpUrl
  show (if ("http://".data ++ (host.data ++ ':' :: natDecimal port) ++
      '/' :: '/' :: tail).take 7 = "http://".data then _ else _) = _
  rw [List.append_assoc]
  rw [show (7 : Nat) = ("http://".data).length from rfl]
  rw [List.take_left, List.drop_left]
  rw [if_pos rfl]
  unfold parseAfterScheme
  rw [breakAt_append_of_all (auth_no_stop hh2),
    breakAt_cons_pos (p := authStopChar) (by decide)]
  simp only [List.append_nil, auth_no_userinfo hh2, Bool.false_eq_true,
    if_false]
  rw [auth_colon_split hh2]
  simp only [parsePort_colon_nat hp h80]
  rw [if_neg (by
    push_neg
    exact ⟨hh1, by rw [hostAllowed_of_safe hh2]⟩)]
  simp only [hnum, Bool.false_eq_true, if_false]
  have hq2 : (('/' : Char) :: '/' :: tail).any
      (fun c => decide (c = '?') || decide (c = '#')) = false := by
    simp only [List.any_cons, hq]
    decide
  simp only [hq2, Bool.false_eq_true, if_false]
  have hpath : parsePath ('/' :: '/' :: tail) = [] :: segs := by
    show (procSegs [] (splitSlash ('/' :: tail))).map encSeg = [] :: segs
    rw [splitSlash_cons_slash, hsplit]
    rw [procSegs_no_dots (by
      intro s hs
      rcases List.mem_cons.mp hs with h1 | h2
      · subst h1; exact ⟨by decide, by decide⟩
      · exact hnodot s h2) []]
    rw [List.nil_append, List.map_cons]
    rw [show encSeg [] = [] from rfl]
    rw [map_id_of_fixed henc]
  rw [hpath]
  rw [lower_fixed_of_safe hh2, string_mk_data]
  rfl

theorem urlSafe_not_slash {c : Char} (h : urlSafeChar c = true) : c ≠ '/' := by
  simp only [urlSafeChar, Bool.or_eq_true, Bool.and_eq_true,
    decide_eq_true_eq] at h
  intro hh; subst hh; simp_all

theorem any_qh_false_of_urlSafe {l : List Char}
    (h : ∀ c ∈ l, urlSafeChar c = true) :
    (l.any fun c => decide (c = '?') || decide (c = '#')) = false := by
  refine List.any_eq_false.mpr fun c hc => ?_
  rw [Bool.not_eq_true]
  exact urlSafe_not_query_hash (h c hc)

/-- Splitting the shared `api/0/buckets/` prefix of every request path. -/
theorem splitSlash_api_start (rest : List Char) :
    splitSlash ("api/0/buckets/".data ++ rest) =
      "api".data :: "0".data :: "buckets".data :: splitSlash rest := by
  have hre : "api/0/buckets/".data ++ rest =
      "api".data ++ '/' :: ("0".data ++ '/' :: ("buckets".data ++ '/' :: rest)) := rfl
  rw [hre, splitSlash_append_sep (by decide), splitSlash_append_sep (by decide),
    splitSlash_append_sep (by decide)]

/-- The request URL `{base}/api/0/buckets/{id}` seen as the
scheme–authority–double-slash decomposition the parse lemma expects. -/
theorem str_append_empty (s : String) : s ++ "" = s := by
  rw [String.ext_iff, String.data_append]
  simp

theorem bucket_url_decomp {host : String} {port : Nat} (id suffix : String) :
    urlToString { host := host, port := some port, segs := [""], query := none } ++
        "/api/0/buckets/" ++ id ++ suffix =
      String.mk ("http://".data ++ (host.data ++ ':' :: natDecimal port) ++
        '/' :: '/' :: ("api/0/buckets/".data ++ (id.data ++ suffix.data))) := by
  rw [String.ext_iff]
  simp only [urlToString, String.data_append]
  rw [show segsToChars [""] = ['/'] from rfl]
  rw [show (natStr port).data = natDecimal port from rfl]
  simp [List.append_assoc]

/-- Path of the `get_bucket`/`delete_bucket`/`create_bucket` URL for a
URL-safe, non-dot-segment bucket id: `//api/0/buckets/{id}` — a double
slash, because the serialized base URL already ends in `/`. -/
theorem requestPath_bucket_shape {host : String} {port : Nat}
    (hh1 : host.data ≠ []) (hh2 : ∀ c ∈ host.data, hostSafeChar c = true)
    (hnum : endsInNumber host.data = false)
    (hp : port < 65536) (h80 : port ≠ 80)
    (id : String) (hid : ∀ c ∈ id.data, urlSafeChar c = true)
    (hd1 : id ≠ ".") (hd2 : id ≠ "..") :
    requestPath (urlToString
        { host := host, port := some port, segs := [""], query := none } ++
        "/api/0/buckets/" ++ id) =
      some ("//api/0/buckets/" ++ id) := by
  rw [show (urlToString
      { host := host, port := some port, segs := [""], query := none } ++
        "/api/0/buckets/" ++ id) =
      urlToString
        { host := host, port := some port, segs := [""], query := none } ++
        "/api/0/buckets/" ++ id ++ "" from (str_append_empty _).symm]
  rw [bucket_url_decomp id ""]
  unfold requestPath
  rw [parseHttpUrl_two_slash hh1 hh2 hnum hp h80
    ("api/0/buckets/".data ++ (id.data ++ "".data))
    ["api".data, "0".data, "buckets".data, id.data]
    (by
      rw [List.any_append]
      rw [show ("api/0/buckets/".data.any fun c =>
        decide (c = '?') || decide (c = '#')) = false from by decide]
      rw [List.any_append, any_qh_false_of_urlSafe hid]
      rfl)
    (by
      rw [show ("".data : List Char) = [] from rfl, List.append_nil]
      rw [splitSlash_api_start]
      rw [splitSlash_of_no_slash fun c hc => urlSafe_not_slash (hid c hc)])
    (by
      intro s hs
      simp only [List.mem_cons, List.mem_singleton] at hs
      rcases hs with h | h | h | h | h
      · subst h; exact ⟨by decide, by decide⟩
      · subst h; exact ⟨by decide, by decide⟩
      · subst h; exact ⟨by decide, by decide⟩
      · subst h
        refine ⟨fun hc => hd1 ?_, fun hc => hd2 ?_⟩
        · exact String.ext_iff.mpr hc
        · exact String.ext_iff.mpr hc
      · simp at h)
    (by
      intro s hs
      simp only [List.mem_cons, List.mem_singleton] at hs
      rcases hs with h | h | h | h | h
      · subst h; decide
      · subst h; decide
      · subst h; decide
      · subst h; exact encSeg_of_safe hid
      · simp at h)]
  rw [Option.map_some']
  congr 1

/-- Path of the events-collection URL (`get_events`, `insert_event`,
`insert_events`): `//api/0/buckets/{id}/events`. -/
theorem requestPath_events_shape {host : String} {port : Nat}
    (hh1 : host.data ≠ []) (hh2 : ∀ c ∈ host.data, hostSafeChar c = true)
    (hnum : endsInNumber host.data = false)
    (hp : port < 65536) (h80 : port ≠ 80)
    (id : String) (hid : ∀ c ∈ id.data, urlSafeChar c = true)
    (hd1 : id ≠ ".") (hd2 : id ≠ "..") :
    requestPath (urlToString
        { host := host, port := some port, segs := [""], query := none } ++
        "/api/0/buckets/" ++ id ++ "/events") =
      some ("//api/0/buckets/" ++ id ++ "/events") := by
  rw [bucket_url_decomp id "/events"]
  unfold requestPath
  rw [parseHttpUrl_two_slash hh1 hh2 hnum hp h80
    ("api/0/buckets/".data ++ (id.data ++ "/events".data))
    ["api".data, "0".data, "buckets".data, id.data, "events".data]
    (by
      rw [List.any_append]
      rw [show ("api/0/buckets/".data.any fun c =>
        decide (c = '?') || decide (c = '#')) = false from by decide]
      rw [List.any_append, any_qh_false_of_urlSafe hid]
      rw [show ("/events".data.any fun c =>
        decide (c = '?') || decide (c = '#')) = false from by decide]
      rfl)
    (by
      rw [splitSlash_api_start]
      rw [show id.data ++ "/events".data = id.data ++ '/' :: "events".data
        from rfl]
      rw [splitSlash_append_sep fun c hc => urlSafe_not_slash (hid c hc)]
      rw [show splitSlash "events".data = ["events".data] from by decide])
    (by
      intro s hs
      simp only [List.mem_cons, List.mem_singleton] at hs
      rcases hs with h | h | h | h | h | h
      · subst h; exact ⟨by decide, by decide⟩
      · subst h; exact ⟨by decide, by decide⟩
      · subst h; exact ⟨by decide, by decide⟩
      · subst h
        refine ⟨fun hc => hd1 ?_, fun hc => hd2 ?_⟩
        · exact String.ext_iff.mpr hc
        · exact String.ext_iff.mpr hc
      · subst h; exact ⟨by decide, by decide⟩
      · simp at h)
    (by
      intro s hs
      simp only [List.mem_cons, List.mem_singleton] at hs
      rcases hs with h | h | h | h | h | h
      · subst h; decide
      · subst h; decide
      · subst h; decide
      · subst h; exact encSeg_of_safe hid
      · subst h; decide
      · simp at h)]
  rw [Option.map_some']
  congr 1

theorem segsToChars_eq (segs : List String) :
    segsToChars segs = segs.flatMap (fun s => '/' :: s.data) := by
  unfold segsToChars
  rw [segsToChars_foldl]
  simp

/-- Path of the `get_event_count` URL:
`//api/0/buckets/{id}/events/count`. -/
theorem requestPath_count_shape {host : String} {port : Nat}
    (hh1 : host.data ≠ []) (hh2 : ∀ c ∈ host.data, hostSafeChar c = true)
    (hnum : endsInNumber host.data = false)
    (hp : port < 65536) (h80 : port ≠ 80)
    (id : String) (hid : ∀ c ∈ id.data, urlSafeChar c = true)
    (hd1 : id ≠ ".") (hd2 : id ≠ "..") :
    requestPath (urlToString
        { host := host, port := some port, segs := [""], query := none } ++
        "/api/0/buckets/" ++ id ++ "/events/count") =
      some ("//api/0/buckets/" ++ id ++ "/events/count") := by
  rw [bucket_url_decomp id "/events/count"]
  unfold requestPath
  rw [parseHttpUrl_two_slash hh1 hh2 hnum hp h80
    ("api/0/buckets/".data ++ (id.data ++ "/events/count".data))
    ["api".data, "0".data, "buckets".data, id.data, "events".data, "count".data]
    (by
      rw [List.any_append]
      rw [show ("api/0/buckets/".data.any fun c =>
        decide (c = '?') || decide (c = '#')) = false from by decide]
      rw [List.any_append, any_qh_false_of_urlSafe hid]
      rw [show ("/events/count".data.any fun c =>
        decide (c = '?') || decide (c = '#')) = false from by decide]
      rfl)
    (by
      rw [splitSlash_api_start]
      rw [show id.data ++ "/events/count".data =
        id.data ++ '/' :: "events/count".data from rfl]
      rw [splitSlash_append_sep fun c hc => urlSafe_not_slash (hid c hc)]
      rw [show splitSlash "events/count".data = ["events".data, "count".data]
        from by decide])
    (by
      intro s hs
      simp only [List.mem_cons, List.mem_singleton] at hs
      rcases hs with h | h | h | h | h | h | h
      · subst h; exact ⟨by decide, by decide⟩
      · subst h; exact ⟨by decide, by decide⟩
      · subst h; exact ⟨by decide, by decide⟩
      · subst h
        refine ⟨fun hc => hd1 ?_, fun hc => hd2 ?_⟩
        · exact String.ext_iff.mpr hc
        · exact String.ext_iff.mpr hc
      · subst h; exact ⟨by decide, by decide⟩
      · subst h; exact ⟨by decide, by decide⟩
      · simp at h)
    (by
      intro s hs
      simp only [List.mem_cons, List.mem_singleton] at hs
      rcases hs with h | h | h | h | h | h | h
      · subst h; decide
      · subst h; decide
      · subst h; decide
      · subst h; exact encSeg_of_safe hid
      · subst h; decide
      · subst h; decide
      · simp at h)]
  rw [Option.map_some']
  congr 1
  rw [String.ext_iff]
  simp [segsToChars_eq, List.append_assoc]

/-- Path of the `delete_event` URL:
`//api/0/buckets/{id}/events/{eventId}`. -/
theorem requestPath_delete_event_shape {host : String} {port : Nat}
    (hh1 : host.data ≠ []) (hh2 : ∀ c ∈ host.data, hostSafeChar c = true)
    (hnum : endsInNumber host.data = false)
    (hp : port < 65536) (h80 : port ≠ 80)
    (id : String) (hid : ∀ c ∈ id.data, urlSafeChar c = true)
    (hd1 : id ≠ ".") (hd2 : id ≠ "..") (eid : Int) :
    requestPath (urlToString
        { host := host, port := some port, segs := [""], query := none } ++
        "/api/0/buckets/" ++ id ++ "/events/" ++ intStr eid) =
      some ("//api/0/buckets/" ++ id ++ "/events/" ++ intStr eid) := by
  rw [String.append_assoc _ "/events/" (intStr eid)]
  rw [bucket_url_decomp id ("/events/" ++ intStr eid)]
  have hsufdata : ("/events/" ++ intStr eid).data =
      '/' :: ("events".data ++ '/' :: intDecimal eid) := by
    rw [String.data_append]
    rfl
  rw [hsufdata]
  unfold requestPath
  rw [parseHttpUrl_two_slash hh1 hh2 hnum hp h80
    ("api/0/buckets/".data ++
      (id.data ++ '/' :: ("events".data ++ '/' :: intDecimal eid)))
    ["api".data, "0".data, "buckets".data, id.data, "events".data,
      intDecimal eid]
    (by
      rw [List.any_append]
      rw [show ("api/0/buckets/".data.any fun c =>
        decide (c = '?') || decide (c = '#')) = false from by decide]
      rw [List.any_append, any_qh_false_of_urlSafe hid]
      rw [List.any_cons, List.any_append]
      rw [show ("events".data.any fun c =>
        decide (c = '?') || decide (c = '#')) = false from by decide]
      rw [List.any_cons, any_qh_false_of_urlSafe (fun c hc => intDecimal_urlSafe c hc)]
      rfl)
    (by
      rw [splitSlash_api_start]
      rw [splitSlash_append_sep fun c hc => urlSafe_not_slash (hid c hc)]
      rw [splitSlash_append_sep (by decide)]
      rw [splitSlash_of_no_slash fun c hc => intDecimal_no_slash c hc])
    (by
      intro s hs
      simp only [List.mem_cons, List.mem_singleton] at hs
      rcases hs with h | h | h | h | h | h | h
      · subst h; exact ⟨by decide, by decide⟩
      · subst h; exact ⟨by decide, by decide⟩
      · subst h; exact ⟨by decide, by decide⟩
      · subst h
        refine ⟨fun hc => hd1 ?_, fun hc => hd2 ?_⟩
        · exact String.ext_iff.mpr hc
        · exact String.ext_iff.mpr hc
      · subst h; exact ⟨by decide, by decide⟩
      · subst h
        constructor
        · intro hc
          have := intDecimal_chars (i := eid) '.' (by rw [hc]; simp)
          rcases this with hdig | hminus
          · revert hdig; decide
          · revert hminus; decide
        · intro hc
          have := intDecimal_chars (i := eid) '.' (by rw [hc]; simp)
          rcases this with hdig | hminus
          · revert hdig; decide
          · revert hminus; decide
      · simp at h)
    (by
      intro s hs
      simp only [List.mem_cons, List.mem_singleton] at hs
      rcases hs with h | h | h | h | h | h | h
      · subst h; decide
      · subst h; decide
      · subst h; decide
      · subst h; exact encSeg_of_safe hid
      · subst h; decide
      · subst h; exact encSeg_of_safe fun c hc => intDecimal_urlSafe c hc
      · simp at h)]
  rw [Option.map_some']
  congr 1
  rw [String.ext_iff]
  simp [segsToChars_eq, intStr, List.append_assoc]

/-! ## RFC 3339 grammar facts -/

theorem tailOk_dot_pad {k m : Nat} (hk : k ≠ 0) :
    rfc3339TailOk (('.' :: padDigits k m) ++
      '+' :: '0' :: '0' :: ':' :: '0' :: '0' :: []) = true := by
  rw [List.cons_append]
  unfold rfc3339TailOk
  rw [if_neg (by simp)]
  have hbreak : breakAt (fun c => ! digitB c)
      (padDigits k m ++ '+' :: '0' :: '0' :: ':' :: '0' :: '0' :: []) =
      (padDigits k m ++ [], '+' :: '0' :: '0' :: ':' :: '0' :: '0' :: []) := by
    rw [breakAt_append_of_all (fun c hc => by
      simp [padDigits_digits k m c hc])]
    rw [breakAt_cons_pos (by decide)]
  simp only [hbreak, List.append_nil]
  have hne : padDigits k m ≠ [] := by
    intro hnil
    have := padDigits_length k m
    rw [hnil] at this
    simp at this
    omega
  simp [hne]

theorem rfc3339TailOk_frac (ns : Nat) :
    rfc3339TailOk (fracChars ns ++
      '+' :: '0' :: '0' :: ':' :: '0' :: '0' :: []) = true := by
  unfold fracChars
  by_cases h0 : ns = 0
  · rw [if_pos h0]
    rfl
  · rw [if_neg h0]
    by_cases h6 : ns % 1000000 = 0
    · rw [if_pos h6]
      exact tailOk_dot_pad (by omega)
    · rw [if_neg h6]
      by_cases h3 : ns % 1000 = 0
      · rw [if_pos h3]
        exact tailOk_dot_pad (by omega)
      · rw [if_neg h3]
        exact tailOk_dot_pad (by omega)

/-- The `to_rfc3339` rendering always emits a string matching the RFC 3339 / UTC-offset
grammar. -/
theorem isRfc3339_toRfc3339 (d : UtcDateTime) (h9 : d.year ≤ 9999) :
    isRfc3339Utc (toRfc3339 d) = true := by
  obtain ⟨y1, y2, y3, y4, hy⟩ := list_len_four (padDigits_length 4 d.year)
  obtain ⟨m1, m2, hm⟩ := list_len_two (padDigits_length 2 d.month)
  obtain ⟨d1, d2, hd⟩ := list_len_two (padDigits_length 2 d.day)
  obtain ⟨h1, h2, hh⟩ := list_len_two (padDigits_length 2 d.hour)
  obtain ⟨i1, i2, hi⟩ := list_len_two (padDigits_length 2 d.minute)
  obtain ⟨s1, s2, hs⟩ := list_len_two (padDigits_length 2 d.second)
  have hdig : ∀ c, c ∈ [y1, y2, y3, y4] ∨ c ∈ [m1, m2] ∨ c ∈ [d1, d2] ∨
      c ∈ [h1, h2] ∨ c ∈ [i1, i2] ∨ c ∈ [s1, s2] → digitB c = true := by
    intro c hc
    rcases hc with h | h | h | h | h | h
    · exact padDigits_digits 4 d.year c (hy ▸ h)
    · exact padDigits_digits 2 d.month c (hm ▸ h)
    · exact padDigits_digits 2 d.day c (hd ▸ h)
    · exact padDigits_digits 2 d.hour c (hh ▸ h)
    · exact padDigits_digits 2 d.minute c (hi ▸ h)
    · exact padDigits_digits 2 d.second c (hs ▸ h)
  unfold isRfc3339Utc toRfc3339
  rw [show yearChars d.year = padDigits 4 d.year from by
    unfold yearChars
    rw [if_pos h9]]
  rw [hy, hm, hd, hh, hi, hs]
  simp only [List.cons_append, List.nil_append]
  rw [hdig y1 (by simp), hdig y2 (by simp), hdig y3 (by simp),
    hdig y4 (by simp), hdig m1 (by simp), hdig m2 (by simp),
    hdig d1 (by simp), hdig d2 (by simp), hdig h1 (by simp),
    hdig h2 (by simp), hdig i1 (by simp), hdig i2 (by simp),
    hdig s1 (by simp), hdig s2 (by simp)]
  simp only [Bool.true_and]
  exact rfc3339TailOk_frac d.nanos

/-! ## Facts about `rustParseI64` and trimming -/

theorem rustParseI64_chars {s : String} {n : Int} (h : rustParseI64 s = some n) :
    s.data ≠ [] ∧ ∀ c ∈ s.data, rustIsWhitespace c = false := by
  unfold rustParseI64 at h
  split at h
  · next rest heq =>
    cases hp : parseDecimal? rest with
    | none => rw [hp] at h; simp at h
    | some m =>
      obtain ⟨hne, hdig⟩ := parseDecimal?_eq_some hp
      rw [heq]
      refine ⟨by simp, ?_⟩
      intro c hc
      rcases List.mem_cons.mp hc with h1 | h2
      · subst h1; decide
      · exact digitB_not_ws (hdig c h2)
  · next rest heq =>
    cases hp : parseDecimal? rest with
    | none => rw [hp] at h; simp at h
    | some m =>
      obtain ⟨hne, hdig⟩ := parseDecimal?_eq_some hp
      rw [heq]
      refine ⟨by simp, ?_⟩
      intro c hc
      rcases List.mem_cons.mp hc with h1 | h2
      · subst h1; decide
      · exact digitB_not_ws (hdig c h2)
  · cases hp : parseDecimal? s.data with
    | none => rw [hp] at h; simp at h
    | some m =>
      obtain ⟨hne, hdig⟩ := parseDecimal?_eq_some hp
      exact ⟨hne, fun c hc => digitB_not_ws (hdig c hc)⟩

theorem trim_of_parse {s : String} {n : Int} (hp : rustParseI64 s = some n) :
    trimString s = s := by
  obtain ⟨hne, hnws⟩ := rustParseI64_chars hp
  unfold trimString
  have := @trimChars_sandwich [] s.data [] (by simp) (by simp) hne hnws
  simp only [List.nil_append, List.append_nil] at this
  rw [this]

theorem trim_sandwich_of_parse {w1 s w2 : String} {n : Int}
    (hw1 : ∀ c ∈ w1.data, rustIsWhitespace c = true)
    (hw2 : ∀ c ∈ w2.data, rustIsWhitespace c = true)
    (hp : rustParseI64 s = some n) :
    trimString (w1 ++ s ++ w2) = s := by
  obtain ⟨hne, hnws⟩ := rustParseI64_chars hp
  unfold trimString
  rw [show (w1 ++ s ++ w2).data = w1.data ++ s.data ++ w2.data from by
    simp [String.data_append]]
  rw [trimChars_sandwich hw1 hw2 hne hnws]

/-! # Claim theorems -/

/-- Claim C1 (counterexample): for the non-numeric body `"abc"` the code
panics — it does not return a recoverable `MalformedCountError` to the
caller; and even the well-formed base-10 integer `9223372036854775808`
(out of `i64` range) makes the call panic instead of returning that
integer. -/
theorem claim1_counterexample :
    parseCountBody "abc" = CountOutcome.panicked ∧
    parseCountBody "abc" ≠ CountOutcome.malformedCountError ∧
    parseCountBody "9223372036854775808" = CountOutcome.panicked := by
  decide

/-- Claim C1 (amended): if the trimmed body parses as an `i64`, the
operation returns that integer; otherwise (non-numeric body, or a
base-10 integer outside the `i64` range) the call panics; a recoverable
`MalformedCountError` is never returned on any path. -/
theorem claim1_amended (body : String) :
    (∀ n, rustParseI64 (trimString body) = some n →
      parseCountBody body = CountOutcome.ok n) ∧
    (rustParseI64 (trimString body) = none →
      parseCountBody body = CountOutcome.panicked) ∧
    parseCountBody body ≠ CountOutcome.malformedCountError := by
  refine ⟨?_, ?_, ?_⟩
  · intro n h
    unfold parseCountBody
    rw [h]
  · intro h
    unfold parseCountBody
    rw [h]
  · unfold parseCountBody
    cases rustParseI64 (trimString body) <;> simp

/-- Claim C1 (witness): body `"42"` returns `42`; body `"abc"` panics. -/
theorem claim1_witness :
    parseCountBody "42" = CountOutcome.ok 42 ∧
    parseCountBody "abc" = CountOutcome.panicked :=
  ⟨(claim1_amended "42").1 42 (by decide), (claim1_amended "abc").2.1 (by decide)⟩

/-- Claim C2 (counterexample): for the URL-safe bucket id `"test"` the
`get_bucket` request path is `//api/0/buckets/test` — the serialized base
URL ends in `/` and the format string adds another — not the claimed
`/api/0/buckets/test`; and the URL-safe id `".."` collapses as a dot
segment, yielding path `//api/0/`. -/
theorem claim2_counterexample :
    requestPath (get_bucket_url defaultClient "test") =
      some "//api/0/buckets/test" ∧
    some ("//api/0/buckets/test" : String) ≠ some "/api/0/buckets/test" ∧
    requestPath (get_bucket_url defaultClient "..") = some "//api/0/" := by
  decide

/-- Claim C2 (amended): for every client built by `new` from a safe host
and non-default port, and every bucket id of URL-safe characters other
than the dot segments `"."` and `".."`, the request paths of
`get_bucket`, `delete_bucket`, `get_events`, `insert_event`,
`insert_events`, `get_event_count` and `delete_event` are exactly
`//api/0/buckets/{id}` and its `/events`, `/events/count`,
`/events/{eventId}` sub-paths: one double slash after the authority
(caused by the trailing slash of the serialized base URL), no other
slash defects and no percent-encoding of the id. -/
theorem claim2_amended (host : String) (port : Nat) (name hn : String)
    (c : AwClient) (id : String) (eid : Int)
    (hh1 : host.data ≠ []) (hh2 : ∀ ch ∈ host.data, hostSafeChar ch = true)
    (hp : port < 65536) (h80 : port ≠ 80)
    (hc : awNew host port name hn = some c)
    (hid : ∀ ch ∈ id.data, urlSafeChar ch = true)
    (hd1 : id ≠ ".") (hd2 : id ≠ "..") :
    requestPath (get_bucket_url c id) = some ("//api/0/buckets/" ++ id) ∧
    requestPath (delete_bucket_url c id) = some ("//api/0/buckets/" ++ id) ∧
    requestPath (get_events_base_url c id) =
      some ("//api/0/buckets/" ++ id ++ "/events") ∧
    requestPath (insert_event_url c id) =
      some ("//api/0/buckets/" ++ id ++ "/events") ∧
    requestPath (insert_events_url c id) =
      some ("//api/0/buckets/" ++ id ++ "/events") ∧
    requestPath (get_event_count_url c id) =
      some ("//api/0/buckets/" ++ id ++ "/events/count") ∧
    requestPath (delete_event_url c id eid) =
      some ("//api/0/buckets/" ++ id ++ "/events/" ++ intStr eid) := by
  cases hnum : endsInNumber host.data with
  | true =>
    unfold awNew at hc
    rw [parseHttpUrl_base_ipv4_none hh1 hh2 hnum] at hc
    simp at hc
  | false =>
    rw [awNew_eq name hn hh1 hh2 hnum hp h80] at hc
    injection hc with hc
    subst hc
    exact ⟨requestPath_bucket_shape hh1 hh2 hnum hp h80 id hid hd1 hd2,
      requestPath_bucket_shape hh1 hh2 hnum hp h80 id hid hd1 hd2,
      requestPath_events_shape hh1 hh2 hnum hp h80 id hid hd1 hd2,
      requestPath_events_shape hh1 hh2 hnum hp h80 id hid hd1 hd2,
      requestPath_events_shape hh1 hh2 hnum hp h80 id hid hd1 hd2,
      requestPath_count_shape hh1 hh2 hnum hp h80 id hid hd1 hd2,
      requestPath_delete_event_shape hh1 hh2 hnum hp h80 id hid hd1 hd2 eid⟩

/-- Claim C2 (witness): the amended statement at host `localhost`, port
5600, bucket id `test` and event id `-7`. -/
theorem claim2_witness :
    requestPath (get_bucket_url defaultClient "test") =
      some ("//api/0/buckets/" ++ "test") ∧
    requestPath (delete_bucket_url defaultClient "test") =
      some ("//api/0/buckets/" ++ "test") ∧
    requestPath (get_events_base_url defaultClient "test") =
      some ("//api/0/buckets/" ++ "test" ++ "/events") ∧
    requestPath (insert_event_url defaultClient "test") =
      some ("//api/0/buckets/" ++ "test" ++ "/events") ∧
    requestPath (insert_events_url defaultClient "test") =
      some ("//api/0/buckets/" ++ "test" ++ "/events") ∧
    requestPath (get_event_count_url defaultClient "test") =
      some ("//api/0/buckets/" ++ "test" ++ "/events/count") ∧
    requestPath (delete_event_url defaultClient "test" (-7)) =
      some ("//api/0/buckets/" ++ "test" ++ "/events/" ++ intStr (-7)) :=
  claim2_amended "localhost" 5600 "test-client" "test-host" defaultClient
    "test" (-7) (by decide) (by decide) (by decide) (by decide) (by decide)
    (by decide) (by decide) (by decide)

/-- Claim C3 (counterexample): chrono can hold datetimes with a
five-digit year, and its RFC 3339 writer renders them sign-prefixed
(`+10000-...`) — ISO 8601 expanded form, not RFC 3339 — yet `get_events`
still emits that value as the `start` parameter, refuting "start and end
encoded in RFC 3339 format" as universally stated. -/
theorem claim3_counterexample :
    toRfc3339 ⟨10000, 1, 1, 0, 0, 0, 0⟩ = "+10000-01-01T00:00:00+00:00" ∧
    isRfc3339Utc (toRfc3339 ⟨10000, 1, 1, 0, 0, 0, 0⟩) = false ∧
    eventsQueryPairs (some ⟨10000, 1, 1, 0, 0, 0, 0⟩) none none =
      [("start", "+10000-01-01T00:00:00+00:00")] := by
  decide

/-- Claim C3 (amended): for every combination of present/absent `start`,
`stop` and `limit` whose present timestamps are well-formed chrono
datetimes within RFC 3339's year range (year at most 9999), the appended
query pairs are exactly the present parameters in source order —
`start`/`end` carrying the RFC 3339 UTC rendering of the timestamp,
`limit` the plain base-10 rendering of the integer — the pair list is
empty exactly when all three are absent, and an empty pair list leaves
the URL untouched (no `?` is ever emitted for absent parameters).
Timestamps with year 10000 or more render in sign-prefixed ISO 8601
expanded form instead. -/
theorem claim3_amended (start stop : Option UtcDateTime) (limit : Option Nat)
    (hstart : ∀ d, start = some d → d.WellFormed)
    (hstop : ∀ d, stop = some d → d.WellFormed) :
    eventsQueryPairs start stop limit =
      (start.map fun d => ("start", toRfc3339 d)).toList ++
      (stop.map fun d => ("end", toRfc3339 d)).toList ++
      (limit.map fun l => ("limit", natStr l)).toList ∧
    (∀ d, start = some d → isRfc3339Utc (toRfc3339 d) = true) ∧
    (∀ d, stop = some d → isRfc3339Utc (toRfc3339 d) = true) ∧
    (∀ l, limit = some l →
      natStr l ≠ "" ∧ ∀ ch ∈ (natStr l).data, digitB ch = true) ∧
    (eventsQueryPairs start stop limit = [] ↔
      start = none ∧ stop = none ∧ limit = none) ∧
    (∀ c bucketname, get_events_final_url c bucketname none none none =
      (parseHttpUrl (get_events_base_url c bucketname)).map urlToString) := by
  refine ⟨?_, ?_, ?_, ?_, ?_, ?_⟩
  · cases start <;> cases stop <;> cases limit <;> rfl
  · intro d hd
    exact isRfc3339_toRfc3339 d (hstart d hd).1
  · intro d hd
    exact isRfc3339_toRfc3339 d (hstop d hd).1
  · intro l hl
    constructor
    · intro hnil
      exact natDecimal_ne_nil (congrArg String.data hnil)
    · intro ch hch
      exact natDecimal_digits ch hch
  · cases start <;> cases stop <;> cases limit <;>
      simp [eventsQueryPairs]
  · intro c bucketname
    rfl

/-- Claim C3 (witness): with a well-formed 2023 `start` and a `limit`
present and `stop` absent, exactly the two pairs are appended and the
rendered values are RFC 3339 / base-10. -/
theorem claim3_witness :
    eventsQueryPairs (some ⟨2023, 1, 2, 3, 4, 5, 0⟩) none (some 5) =
      [("start", toRfc3339 ⟨2023, 1, 2, 3, 4, 5, 0⟩), ("limit", natStr 5)] ∧
    isRfc3339Utc (toRfc3339 ⟨2023, 1, 2, 3, 4, 5, 0⟩) = true :=
  have h := claim3_amended (some ⟨2023, 1, 2, 3, 4, 5, 0⟩) none (some 5)
    (fun d hd => Option.some.inj hd ▸ (by decide))
    (fun d hd => Option.noConfusion hd)
  ⟨by rw [h.1]; rfl, h.2.1 _ rfl⟩

/-- Claim C5: for every bucket id and event, `insert_event` produces
exactly the same HTTP request as `insert_events` on the one-element list
— `POST` to the same URL with body the JSON serialization of the
one-element array. -/
theorem claim5_confirmed (c : AwClient) (bucketname : String) (e : Event) :
    insert_event_request c bucketname e =
      insert_events_request c bucketname [e] ∧
    (insert_event_request c bucketname e).body =
      some (Json.arr [serializeEvent e]) :=
  ⟨rfl, rfl⟩

/-- Claim C6 (counterexample): a 304 response — non-2xx, but neither a
client nor a server error — passes `error_for_status` unchanged, so
`get_bucket` proceeds to a decode attempt on the body instead of
returning a status error, and `get_event_count` proceeds to parse the
body. -/
theorem claim6_counterexample :
    get_bucket_handle ⟨304, "{}"⟩ = GetBucketStep.decodeBody "{}" ∧
    (get_bucket_handle ⟨304, "{}"⟩).isStatusError = false ∧
    get_event_count_handle ⟨304, "42"⟩ = CountOutcome.ok 42 := by
  decide

/-- Claim C6 (amended): for every response whose status is a 4xx client
error or 5xx server error, `get_bucket` and `get_event_count` return a
status error carrying that status code before any decode attempt on the
body; in particular a 404 on `get_bucket` surfaces as a status error.
Other non-2xx statuses (1xx/3xx, e.g. 304) are not converted and proceed
to the decode step. -/
theorem claim6_amended (r : Response) (h4 : 400 ≤ r.status)
    (h5 : r.status ≤ 599) :
    get_bucket_handle r = GetBucketStep.statusError r.status ∧
    get_event_count_handle r = CountOutcome.statusError r.status := by
  have hst : errorForStatus r.status = true := by
    simp only [errorForStatus, Bool.or_eq_true, Bool.and_eq_true,
      decide_eq_true_eq]
    omega
  unfold get_bucket_handle get_event_count_handle
  rw [hst]
  simp

/-- Claim C6 (witness): a 404 response surfaces as a status error
carrying 404 on both operations. -/
theorem claim6_witness :
    get_bucket_handle ⟨404, "no such bucket"⟩ =
      GetBucketStep.statusError 404 ∧
    get_event_count_handle ⟨404, "no such bucket"⟩ =
      CountOutcome.statusError 404 :=
  claim6_amended ⟨404, "no such bucket"⟩ (by decide) (by decide)

/-- Claim C7: whenever the transport round trip succeeds, every mutating
operation — `create_bucket`, `create_bucket_simple`, `delete_bucket`,
`insert_event`, `insert_events`, `heartbeat`, `delete_event` — returns
success regardless of the response's HTTP status code. -/
theorem claim7_confirmed (r : Response) :
    create_bucket_call (some r) = Except.ok () ∧
    create_bucket_simple_call (some r) = Except.ok () ∧
    delete_bucket_call (some r) = Except.ok () ∧
    insert_event_call (some r) = Except.ok () ∧
    insert_events_call (some r) = Except.ok () ∧
    heartbeat_call (some r) = Except.ok () ∧
    delete_event_call (some r) = Except.ok () :=
  ⟨rfl, rfl, rfl, rfl, rfl, rfl, rfl⟩

/-- Claim C8: `create_bucket_simple(id, type)` issues exactly the request
`create_bucket` issues for the bucket whose id is `id`, type tag `type`,
client name and host name the client's stored identity, empty data and
default (empty) metadata, and absent events/created/last-updated
fields. -/
theorem claim8_confirmed (c : AwClient) (bucketname buckettype : String) :
    create_bucket_simple_request c bucketname buckettype =
      create_bucket_request c (simpleBucket c bucketname buckettype) ∧
    (simpleBucket c bucketname buckettype).id = bucketname ∧
    (simpleBucket c bucketname buckettype)._type = buckettype ∧
    (simpleBucket c bucketname buckettype).client = c.name ∧
    (simpleBucket c bucketname buckettype).hostname = c.hostname ∧
    (simpleBucket c bucketname buckettype).data = [] ∧
    (simpleBucket c bucketname buckettype).metadata = BucketMetadata.empty ∧
    (simpleBucket c bucketname buckettype).events = none ∧
    (simpleBucket c bucketname buckettype).created = none ∧
    (simpleBucket c bucketname buckettype).last_updated = none ∧
    (simpleBucket c bucketname buckettype).bid = none :=
  ⟨rfl, rfl, rfl, rfl, rfl, rfl, rfl, rfl, rfl, rfl, rfl⟩

/-- Claim C9: every operation of the client leaves the client's
`baseurl`, `name` and `hostname` fields unchanged, whether the call
succeeds or fails — all methods take `&self` and never write the
fields. -/
theorem claim9_confirmed (c : AwClient) (op : OpCall) (resp : Option Response) :
    (runOp c op resp).2.2.baseurl = c.baseurl ∧
    (runOp c op resp).2.2.name = c.name ∧
    (runOp c op resp).2.2.hostname = c.hostname := by
  cases op <;> exact ⟨rfl, rfl, rfl⟩

/-- Claim C10: an event-count body that is a parseable integer wrapped in
leading and/or trailing whitespace is trimmed before parsing and returns
the integer — the same result as the body without the whitespace. -/
theorem claim10_confirmed (w1 w2 s : String) (n : Int)
    (hw1 : ∀ c ∈ w1.data, rustIsWhitespace c = true)
    (hw2 : ∀ c ∈ w2.data, rustIsWhitespace c = true)
    (hp : rustParseI64 s = some n) :
    parseCountBody (w1 ++ s ++ w2) = CountOutcome.ok n ∧
    parseCountBody s = CountOutcome.ok n := by
  constructor
  · unfold parseCountBody
    rw [trim_sandwich_of_parse hw1 hw2 hp, hp]
  · unfold parseCountBody
    rw [trim_of_parse hp, hp]

/-- Claim C10 (witness): body `"42\n"` returns `42`, as does `"42"`. -/
theorem claim10_witness :
    parseCountBody ("" ++ "42" ++ "\n") = CountOutcome.ok 42 ∧
    parseCountBody "42" = CountOutcome.ok 42 :=
  claim10_confirmed "" "\n" "42" 42 (by decide) (by decide) (by decide)
